import Mathlib

/-!
Verification of the dynasty-analysis fantasy-football dashboard core:
the history resolver, season data reconciler, transaction narrative
engine and aggregation engine, shallowly embedded from the JavaScript
sources (`utils/dataUtils.js`, `contexts/LeagueContext.js`,
`components/PlayerTradeHistoryModal.js`, `utils/cacheUtils.js`).

Modelling conventions:
- JS numbers holding fantasy points are modelled as `Rat`; week numbers,
  matchup ids, roster ids and season years as `Int` (season labels are
  canonical year strings in the source, so string keys compare equal
  exactly when the parsed integers do).
- A JS value that may be `null`/`undefined` is an `Option`; JS
  truthiness tests on strings/numbers are spelled out (`"" `and `0` are
  falsy).
- Asynchronous fetch operations become oracle functions passed in
  explicitly; a fetch that may throw returns an `Option` (`none` = the
  rejection that the source catches).
- `Array.prototype.sort` (ES2019+, stable) is modelled by
  `List.insertionSort`, inserting each element before the first element
  it must strictly precede, which is stable and agrees with any
  spec-compliant stable sort whenever the comparator is consistent.
-/

namespace Dynasty

/-- JS `x || dflt` for an optional string (`undefined`, `null` and `""` are falsy). -/
def jsOrString (o : Option String) (dflt : String) : String :=
  match o with
  | some s => if s = "" then dflt else s
  | none => dflt

/-- JS truthiness of an optional integer (`undefined`, `null` and `0` are falsy). -/
def truthyInt (o : Option Int) : Bool :=
  match o with
  | some n => n ≠ 0
  | none => false

/-- JS truthiness of an optional string (`undefined`, `null` and `""` are falsy). -/
def truthyStr (o : Option String) : Bool :=
  match o with
  | some s => s ≠ ""
  | none => false

/-- JS `x || dflt` rendering an optional integer field as a string
(used for `pick.round || '?'` where `0` is falsy). -/
def jsOrIntStr (o : Option Int) (dflt : String) : String :=
  match o with
  | some n => if n = 0 then dflt else toString n
  | none => dflt

/-- JS `String.prototype.trim`: drop leading and trailing whitespace
(structural definition so that concrete instances evaluate). -/
def jsTrim (s : String) : String :=
  ⟨((s.data.dropWhile Char.isWhitespace).reverse.dropWhile Char.isWhitespace).reverse⟩

/-- Fuel-indexed worker for `dedupFirst` (structural recursion so that
concrete instances evaluate; the fuel is always the list length). -/
def dedupFirstGo {α : Type} [DecidableEq α] : Nat → List α → List α
  | _, [] => []
  | 0, _ :: _ => []
  | n + 1, a :: l => a :: dedupFirstGo n (l.filter (fun b => b ≠ a))

/-- Keep the first occurrence of every element, in order of first
appearance (JS object-insertion semantics for accumulator maps). -/
def dedupFirst {α : Type} [DecidableEq α] (l : List α) : List α :=
  dedupFirstGo l.length l

/-! ### Aggregation engine data model (`utils/dataUtils.js`) -/

/-- One per-roster, per-week matchup record as consumed by the
aggregation engine.  `owner_id` is the (possibly absent) field read by
`getTrendingTeams` when looking up the managing user. -/
structure MatchupRec where
  week : Int
  matchup_id : Int
  roster_id : Int
  points : Rat
  owner_id : Option String
deriving Repr, DecidableEq

/-- A league user (`user_id`, optional `display_name`, optional avatar). -/
structure LeagueUser where
  user_id : String
  display_name : Option String
  avatar : Option String
deriving Repr, DecidableEq

/-- `m.roster_id === parseInt(rosterId)`: the record belongs to the
target roster. -/
def tgtP (rosterId : Int) (m : MatchupRec) : Bool := m.roster_id = rosterId

/-- `m.roster_id !== parseInt(rosterId)`: the record belongs to another
roster (a candidate opponent). -/
def oppP (rosterId : Int) (m : MatchupRec) : Bool := m.roster_id ≠ rosterId

/-- The group of records sharing the `(week, matchup_id)` key `k`
(the JS string key `week + "_" + matchup_id` renders the integer pair
injectively, so grouping by the pair is the same). -/
def groupOf (matchups : List MatchupRec) (k : Int × Int) : List MatchupRec :=
  matchups.filter (fun m => m.week = k.1 ∧ m.matchup_id = k.2)

/-- One `teamMatchups.forEach` step of `calculateWinRate`: look up the
target record's group, require at least two records, find the first
record of another roster, and bump the win/game counters. -/
def winStep (matchups : List MatchupRec) (rosterId : Int) (acc : Nat × Nat)
    (tm : MatchupRec) : Nat × Nat :=
  let g := groupOf matchups (tm.week, tm.matchup_id)
  if g.length < 2 then acc
  else
    match g.find? (oppP rosterId) with
    | none => acc
    | some opp =>
      (acc.1 + (if opp.points < tm.points then 1 else 0), acc.2 + 1)

/-- `calculateWinRate(matchups, rosterId)` from the revised
`utils/dataUtils.js`: filter to the target roster's records, group all
records by week and matchup id, and for each target record look up its
group, require at least two records there, take the first record of
another roster as the opponent, and count a win when the target's
points strictly exceed the opponent's.  Returns `(wins/totalGames)*100`
or `0` when there are no games. -/
def calculateWinRate (matchups : List MatchupRec) (rosterId : Int) : Rat :=
  if matchups = [] then 0
  else
    let teamMatchups := matchups.filter (tgtP rosterId)
    if teamMatchups = [] then 0
    else
      let wt := teamMatchups.foldl (winStep matchups rosterId) (0, 0)
      if 0 < wt.2 then ((wt.1 : Rat) / (wt.2 : Rat)) * 100 else 0

/-- Bool form of "this target record's group yields a counted game". -/
def gameP (matchups : List MatchupRec) (rosterId : Int) (tm : MatchupRec) : Bool :=
  let g := groupOf matchups (tm.week, tm.matchup_id)
  decide (2 ≤ g.length) && (g.find? (oppP rosterId)).isSome

/-- Bool form of "this target record's game is counted and won". -/
def winP (matchups : List MatchupRec) (rosterId : Int) (tm : MatchupRec) : Bool :=
  let g := groupOf matchups (tm.week, tm.matchup_id)
  decide (2 ≤ g.length) &&
    match g.find? (oppP rosterId) with
    | some opp => decide (opp.points < tm.points)
    | none => false

/-- The distinct `(week, matchup_id)` keys of the target roster's
records, in order of first appearance. -/
def targetGameKeys (matchups : List MatchupRec) (rosterId : Int) : List (Int × Int) :=
  dedupFirst ((matchups.filter (tgtP rosterId)).map (fun m => (m.week, m.matchup_id)))

/-- Spec-side win test for one game key: the target record of the group
beats the designated opponent (the first record of another roster). -/
def specWinAt (matchups : List MatchupRec) (rosterId : Int) (k : Int × Int) : Bool :=
  match (groupOf matchups k).find? (tgtP rosterId),
        (groupOf matchups k).find? (oppP rosterId) with
  | some t, some o => o.points < t.points
  | _, _ => false

/-- Spec-side game test for one key: the group has an opponent record. -/
def specGameAt (matchups : List MatchupRec) (rosterId : Int) (k : Int × Int) : Bool :=
  ((groupOf matchups k).find? (oppP rosterId)).isSome

/-- Number of games (groups of the target with a designated opponent). -/
def specGames (matchups : List MatchupRec) (rosterId : Int) : Nat :=
  (targetGameKeys matchups rosterId).countP (specGameAt matchups rosterId)

/-- Number of won games. -/
def specWins (matchups : List MatchupRec) (rosterId : Int) : Nat :=
  (targetGameKeys matchups rosterId).countP (specWinAt matchups rosterId)

/-! ### `getTrendingTeams` (`utils/dataUtils.js`, revised variant) -/

/-- Output record of `getTrendingTeams` (the transient `weeklyPoints`
map and the `debug` block are recomputed by the spec-side functions
below instead of being stored). -/
structure TeamPerf where
  rosterId : Int
  teamName : String
  avatar : Option String
  trend : Rat
deriving Repr, DecidableEq

/-- The matchups of one week, in input order (`matchupsByWeek[w]`). -/
def matchupsOfWeek (matchups : List MatchupRec) (w : Int) : List MatchupRec :=
  matchups.filter (fun m => m.week = w)

/-- Distinct week numbers present, sorted descending (most recent
first); mirrors `Object.keys(matchupsByWeek)` followed by the
descending numeric sort. -/
def sortedWeeksDesc (matchups : List MatchupRec) : List Int :=
  List.insertionSort (fun a b => b ≤ a) (dedupFirst (matchups.map (fun m => m.week)))

/-- The considered weeks: `sortedWeeks.slice(0, min(weeksToConsider, length))`. -/
def weeksToUse (matchups : List MatchupRec) (weeksToConsider : Nat) : List Int :=
  (sortedWeeksDesc matchups).take weeksToConsider

/-- `teamPerformance[r].weeklyPoints[w]`: the points of roster `r` in
week `w` (the last record wins if a roster appears twice in one week,
matching the JS overwrite), absent when the roster has no record. -/
def weeklyPoints (matchups : List MatchupRec) (r w : Int) : Option Rat :=
  ((matchupsOfWeek matchups w).reverse.find? (fun m => m.roster_id = r)).map
    (fun m => m.points)

/-- The trend of roster `r` over the considered weeks: points in the
most recent week (0 when absent) minus the average of its points over
the other considered weeks, counting only weeks where data exists
(0 when there is none). -/
def trendOf (matchups : List MatchupRec) (weeks : List Int) (r : Int) : Rat :=
  match weeks with
  | [] => 0
  | w0 :: rest =>
    let mostRecent := (weeklyPoints matchups r w0).getD 0
    let prevs := rest.filterMap (fun w => weeklyPoints matchups r w)
    let avg := if 0 < prevs.length then prevs.sum / (prevs.length : Rat) else 0
    mostRecent - avg

/-- Fuel-indexed worker for `firstOccByRoster` (structural recursion so
that concrete instances evaluate; the fuel is always the list length). -/
def firstOccGo : Nat → List MatchupRec → List MatchupRec
  | _, [] => []
  | 0, _ :: _ => []
  | n + 1, m :: rest =>
    m :: firstOccGo n (rest.filter (fun m2 => m2.roster_id ≠ m.roster_id))

/-- First record of each roster, in order of first appearance, over a
record list (JS first-visit initialisation of `teamPerformance`). -/
def firstOccByRoster (l : List MatchupRec) : List MatchupRec :=
  firstOccGo l.length l

/-- Descending-by-trend order used for the final sort
(`(a, b) => b.trend - a.trend`). -/
def trendGe (a b : TeamPerf) : Prop := b.trend ≤ a.trend

instance : DecidableRel trendGe := fun a b => inferInstanceAs (Decidable (b.trend ≤ a.trend))

instance : IsTotal TeamPerf trendGe := ⟨fun a b => le_total b.trend a.trend⟩

instance : IsTrans TeamPerf trendGe :=
  ⟨fun _ _ _ hab hbc => le_trans hbc hab⟩

/-- Build the `teamPerformance` entry for a roster's first-seen record:
team name from the user whose `user_id` equals the record's `owner_id`
(else `"Team <id>"`), and the trend over the considered weeks. -/
def mkTeamPerf (matchups : List MatchupRec) (users : List LeagueUser)
    (weeks : List Int) (m : MatchupRec) : TeamPerf :=
  let user : Option LeagueUser := match m.owner_id with
    | some oid => users.find? (fun u => u.user_id = oid)
    | none => none
  { rosterId := m.roster_id
    teamName := jsOrString (user.bind (fun u => u.display_name))
      ("Team " ++ toString m.roster_id)
    avatar := user.bind (fun u => u.avatar)
    trend := trendOf matchups weeks m.roster_id }

/-- `getTrendingTeams(matchups, users, weeksToConsider)` from the
revised `utils/dataUtils.js`: take the most recent distinct weeks
(at most `weeksToConsider`), return `[]` when fewer than two remain,
build one `TeamPerf` per roster appearing in those weeks, compute each
trend, and sort descending by trend. -/
def getTrendingTeams (matchups : List MatchupRec) (users : List LeagueUser)
    (weeksToConsider : Nat) : List TeamPerf :=
  if matchups = [] then []
  else
    let weeks := weeksToUse matchups weeksToConsider
    if weeks.length < 2 then []
    else
      let flat := (weeks.map (matchupsOfWeek matchups)).flatten
      let teams := (firstOccByRoster flat).map (mkTeamPerf matchups users weeks)
      List.insertionSort trendGe teams

/-! ### History resolver (`getHistoricalLeagueIds`, `utils/dataUtils.js`) -/

/-- Outcome of one `getLeagueFunc(leagueId)` call: a rejection (caught
by the walk), or a league whose `previous_league_id` is `some id` when
present and truthy and `none` otherwise (a `null` league and a league
without a previous id break the loop identically). -/
inductive FetchOutcome where
  | err : FetchOutcome
  | league : Option String → FetchOutcome
deriving Repr, DecidableEq

/-- Result of the history walk, instrumented with the trace of `delay`
calls (milliseconds, in order) and the final attempt counter. -/
structure WalkResult where
  ids : List String
  delays : List Nat
  attemptsUsed : Nat
deriving Repr, DecidableEq

/-- One-to-one embedding of the `while (attempts < maxAttempts)` loop of
`getHistoricalLeagueIds`.  `f` is the league-fetch oracle, indexed by
the number of calls already made so that a stateful fetcher is covered;
`fuel` maintains `fuel = maxAttempts - attempts`. -/
def walkAux (f : Nat → String → FetchOutcome) :
    Nat → Nat → Nat → String → List String → List Nat → WalkResult
  | 0, _, attempts, _, acc, delays => ⟨acc, delays, attempts⟩
  | fuel + 1, calls, attempts, leagueId, acc, delays =>
    let pre := if 0 < attempts then delays ++ [500] else delays
    match f calls leagueId with
    | .err =>
      let delays2 := pre ++ [1000]
      if 2 ≤ attempts + 1 then ⟨acc, delays2, attempts + 1⟩
      else walkAux f fuel (calls + 1) (attempts + 1) leagueId acc delays2
    | .league none => ⟨acc, pre, attempts⟩
    | .league (some prev) =>
      walkAux f fuel (calls + 1) (attempts + 1) prev (acc ++ [prev]) pre

/-- `getHistoricalLeagueIds(currentLeagueId, getLeagueFunc)`: start from
the current league id, follow `previous_league_id` for at most 5
attempts, and return the accumulated ids (plus instrumentation). -/
def getHistoricalLeagueIds (f : Nat → String → FetchOutcome) (currentLeagueId : String) :
    WalkResult :=
  walkAux f 5 0 0 currentLeagueId [currentLeagueId] []

/-! ### Season data reconciler (`contexts/LeagueContext.js`) -/

/-- League metadata as consumed by `fetchAllLeagueData` (the `season`
tag is the year parsed from the canonical year string, `none` when the
field is absent or empty). -/
structure LeagueMeta where
  season : Option Int
  previous_league_id : Option String
deriving Repr, DecidableEq

/-- A roster record (`roster_id`, weak owner reference). -/
structure RosterRec where
  roster_id : Int
  owner_id : Option String
deriving Repr, DecidableEq

/-- The read-through cache snapshot consulted for a past season
(`loadFromCache(kind, leagueId, season)`); `none` is a miss. -/
structure CacheSnapshot where
  league : Option LeagueMeta
  users : Option (List LeagueUser)
  rosters : Option (List RosterRec)
  matchups : Option (List MatchupRec)

/-- The data-source operations used by one season load.  `getMatchups`
returns `none` for a week whose fetch rejects (404 etc.), which the
source catches and treats as no data. -/
structure SeasonApi where
  getLeague : LeagueMeta
  getLeagueUsers : List LeagueUser
  getLeagueRosters : List RosterRec
  getMatchups : Nat → Option (List MatchupRec)

/-- Result of the season load, instrumented with the list of weeks for
which the matchup fetch operation was invoked. -/
structure SeasonLoad where
  league : LeagueMeta
  users : List LeagueUser
  rosters : List RosterRec
  matchups : List MatchupRec
  matchupWeeksRequested : List Nat

/-- `shouldUseCache(season, currentNflSeason)` from `utils/cacheUtils.js`:
cache only strictly past seasons. -/
def shouldUseCache (season currentNflSeason : Int) : Bool :=
  season < currentNflSeason

/-- Tag every record of a fetched week with its week number
(`weekMatchups.forEach(matchup => matchup.week = week)`). -/
def tagWeek (w : Nat) (ms : List MatchupRec) : List MatchupRec :=
  ms.map (fun m => { m with week := (w : Int) })

/-- One week of the matchup loop: append the week's records when the
fetch succeeded with a non-empty list, else keep the accumulator. -/
def fetchWeekStep (api : SeasonApi) (acc : List MatchupRec) (w : Nat) : List MatchupRec :=
  match api.getMatchups w with
  | some ms => if ms = [] then acc else acc ++ tagWeek w ms
  | none => acc

/-- The data-loading core of `fetchAllLeagueData` in
`contexts/LeagueContext.js` (lines 72-197): read league, users and
rosters through the cache for past seasons, and fetch matchups
week-by-week for weeks 1..17 unless the season is in the future, the
current season has not begun (`season_type` not `regular`/`post`), or
cached matchups exist.  The three sequential batch loops (1-6, 7-12,
13-17) concatenate to the single week order 1..17; the incremental
`setMatchups` calls are presentation-only and not modelled. -/
def fetchSeasonData (api : SeasonApi) (cache : CacheSnapshot) (selectedSeason : Int)
    (nflSeason : Int) (nflSeasonType : String) : SeasonLoad :=
  let isFutureSeason := nflSeason < selectedSeason
  let isCurrentNflSeason := selectedSeason = nflSeason
  let useCache := shouldUseCache selectedSeason nflSeason
  let cachedMatchups := if useCache then cache.matchups else none
  let matchups0 := cachedMatchups.getD []
  let league := (if useCache then cache.league else none).getD api.getLeague
  let users := (if useCache then cache.users else none).getD api.getLeagueUsers
  let rosters := (if useCache then cache.rosters else none).getD api.getLeagueRosters
  if matchups0 = [] ∧ ¬isFutureSeason then
    let skipMatchups := isCurrentNflSeason ∧ nflSeasonType ≠ "regular" ∧
      nflSeasonType ≠ "post"
    if skipMatchups then
      ⟨league, users, rosters, matchups0, []⟩
    else
      let weeks := (List.range 17).map (fun i => i + 1)
      ⟨league, users, rosters, weeks.foldl (fetchWeekStep api) matchups0, weeks⟩
  else
    ⟨league, users, rosters, matchups0, []⟩

/-! ### Season-to-league-id map (`fetchAllLeagueData`, lines 199-230) -/

/-- First-writer-wins association-list lookup (JS object property read,
season keys being canonical year strings). -/
def alookup (m : List (Int × String)) (k : Int) : Option String :=
  (m.find? (fun p => p.1 = k)).map (fun p => p.2)

/-- The seasons map before backfill: seed the current league's season,
then scan the historical ids (skipping the starting id once its season
is mapped; a scan fetch that rejects or a league with no season tag
contributes nothing, covered by `scan id = none`). -/
def scanSeasonsMap (leagueId : String) (historicalIds : List String)
    (scan : String → Option Int) (leagueSeason : Option Int) (nflSeason : Int) :
    List (Int × String) :=
  let cur := leagueSeason.getD nflSeason
  let m0 := [(cur, leagueId)]
  historicalIds.foldl (fun m id =>
    if id = leagueId ∧ alookup m cur = some leagueId then m
    else
      match scan id with
      | some s => if alookup m s = none then m ++ [(s, id)] else m
      | none => m) m0

/-- The full seasons-map construction after the history walk: the
scanned map, backfilled with the current NFL season and the two prior
years mapped to the starting league id wherever absent. -/
def buildSeasonsMap (leagueId : String) (historicalIds : List String)
    (scan : String → Option Int) (leagueSeason : Option Int) (nflSeason : Int) :
    List (Int × String) :=
  [nflSeason, nflSeason - 1, nflSeason - 2].foldl (fun m y =>
    if alookup m y = none then m ++ [(y, leagueId)] else m)
    (scanSeasonsMap leagueId historicalIds scan leagueSeason nflSeason)

/-! ### Transaction narrative engine (`components/PlayerTradeHistoryModal.js`) -/

/-- A player directory entry (name fields may be absent or empty). -/
structure PlayerRec where
  first_name : Option String
  last_name : Option String
deriving Repr, DecidableEq

/-- `getPlayerName(player)`: full name of a player object, with the
`"Unknown Player"` fallback for a missing player or an all-empty name. -/
def getPlayerName (player : Option PlayerRec) : String :=
  match player with
  | none => "Unknown Player"
  | some p =>
    let s := jsTrim (p.first_name.getD "" ++ " " ++ p.last_name.getD "")
    if s = "" then "Unknown Player" else s

/-- `getPlayerNameById(pId)`: look the id up in the player directory;
a present player renders as the trimmed `"First Last"` (note: no
`"Unknown Player"` fallback on this path), an absent id as
`"Player <id>"`. -/
def getPlayerNameById (dir : String → Option PlayerRec) (pId : String) : String :=
  match dir pId with
  | some p => jsTrim (p.first_name.getD "" ++ " " ++ p.last_name.getD "")
  | none => "Player " ++ pId

/-- `getManagerName(rosterId, histRosters, histUsers)`: resolve a roster
id to its owner's display name, falling back to `"Roster <id>"` when
the roster or user is unresolved and `"Unknown Manager"` for a falsy
roster id (the rosters and users lists are always present here). -/
def getManagerName (rosterId : Int) (histRosters : List RosterRec)
    (histUsers : List LeagueUser) : String :=
  if rosterId = 0 then "Unknown Manager"
  else
    match histRosters.find? (fun r => r.roster_id = rosterId) with
    | none => "Roster " ++ toString rosterId
    | some r =>
      let user := r.owner_id.bind (fun oid => histUsers.find? (fun u => u.user_id = oid))
      jsOrString (user.bind (fun u => u.display_name)) ("Roster " ++ toString rosterId)

/-- A traded-pick reference inside a transaction (`pick.season`,
`pick.round`, `pick.roster_id` current owner, `pick.original_owner_id`,
`pick.pick` overall pick number). -/
structure DraftPickRef where
  season : Option Int
  round : Option Int
  roster_id : Option Int
  original_owner_id : Option Int
  pick : Option Int
deriving Repr, DecidableEq

/-- League draft metadata (only the id is consumed here). -/
structure Draft where
  draft_id : String
deriving Repr, DecidableEq

/-- A completed draft pick record (`pick_no`, `round`, `draft_slot`,
selected `player_id`). -/
structure DraftPickRecord where
  pick_no : Int
  round : Option Int
  draft_slot : Int
  player_id : Option String
deriving Repr, DecidableEq

/-- The ownership clause appended to every formatted pick:
`"(orig. A to B)"` when original and current owner names differ, else
`"(owned by B)"`. -/
def ownershipNote (originalOwnerName currentOwnerName : String) : String :=
  if originalOwnerName ≠ currentOwnerName then
    " (orig. " ++ originalOwnerName ++ " to " ++ currentOwnerName ++ ")"
  else
    " (owned by " ++ currentOwnerName ++ ")"

/-- `formatDraftPick(pick, histRosters, histUsers, allSeasonsDrafts,
allSeasonsPicks)`: render a pick reference.  For a past season (parsed
year strictly below the current year) with a truthy overall pick
number, look up the season's first draft and the pick record with the
same overall number (numeric comparison); when that record has a
selected player, render the player's name with the drafted record's
round (falling back to the reference's round when the record's round is
falsy) and draft slot.  Otherwise fall back to
`"<year> Round <round>[ Pick <n>]"`.  Both forms carry the ownership
clause. -/
def formatDraftPick (dir : String → Option PlayerRec) (pick : DraftPickRef)
    (histRosters : List RosterRec) (histUsers : List LeagueUser)
    (allSeasonsDrafts : Int → Option (List Draft))
    (allSeasonsPicks : String → Option (List DraftPickRecord)) (currentYear : Int) :
    String :=
  let originalOwnerName := if truthyInt pick.original_owner_id then
      getManagerName (pick.original_owner_id.getD 0) histRosters histUsers
    else "Unknown"
  let currentOwnerName := if truthyInt pick.roster_id then
      getManagerName (pick.roster_id.getD 0) histRosters histUsers
    else "Unknown"
  let roundStr := jsOrIntStr pick.round "?"
  let yearStr := jsOrIntStr pick.season "Unknown Year"
  let pickNumberStr := jsOrIntStr pick.pick ""
  let ownership := ownershipNote originalOwnerName currentOwnerName
  let enriched : Option String :=
    match pick.season, pick.pick with
    | some y, some pn =>
      if y ≠ 0 ∧ y < currentYear ∧ pn ≠ 0 then
        match allSeasonsDrafts y with
        | some (d :: _) =>
          match allSeasonsPicks d.draft_id with
          | some recs =>
            match recs.find? (fun rec => rec.pick_no = pn) with
            | some rec =>
              if truthyStr rec.player_id then
                some (getPlayerNameById dir (rec.player_id.getD "") ++ " (" ++ yearStr ++
                  " Round " ++ jsOrIntStr rec.round roundStr ++ " Pick " ++
                  toString rec.draft_slot ++ ")" ++ ownership)
              else none
            | none => none
          | none => none
        | _ => none
      else none
    | _, _ => none
  match enriched with
  | some s => s
  | none =>
    yearStr ++ " Round " ++ roundStr ++
      (if pickNumberStr ≠ "" then " Pick " ++ pickNumberStr else "") ++ ownership

/-- Waiver settings of a transaction (`waiver_bid`, `waiver_priority`;
the source tests these with `!== undefined`, so presence, not
truthiness, decides). -/
structure TransSettings where
  waiver_bid : Option Int
  waiver_priority : Option Int
deriving Repr, DecidableEq

/-- Draft metadata of a `draft`-type transaction. -/
structure TransMeta where
  pick : Option Int
  round : Option Int
deriving Repr, DecidableEq

/-- A raw transaction record.  `adds`/`drops` are the JS objects mapping
player id to roster id, modelled as association lists in enumeration
order (a `null` object behaves as the empty list everywhere it is
read). -/
structure Transaction where
  transaction_id : Option String
  type : Option String
  status_updated : Option Int
  adds : List (String × Int)
  drops : List (String × Int)
  roster_ids : List Int
  draft_picks : List DraftPickRef
  settings : Option TransSettings
  metadata : Option TransMeta
deriving Repr, DecidableEq

/-- JS object property read on an `adds`/`drops` mapping. -/
def jsGet (m : List (String × Int)) (k : String) : Option Int :=
  (m.find? (fun p => p.1 = k)).map (fun p => p.2)

/-- The `(fromTeam, toTeam, description)` triple returned by
`getTransactionNarrative`. -/
structure Narrative where
  fromTeam : String
  toTeam : String
  description : String
deriving Repr, DecidableEq

/-- `baseDescription(base)`: append the optional `"Other players: ..."`
and `"Draft picks: ..."` clauses. -/
def baseDescription (otherPlayersInvolved draftPicksInvolved : List String)
    (base : String) : String :=
  let additionalInfo :=
    (if otherPlayersInvolved ≠ [] then
      ["Other players: " ++ String.intercalate ", " otherPlayersInvolved] else []) ++
    (if draftPicksInvolved ≠ [] then
      ["Draft picks: " ++ String.intercalate "; " draftPicksInvolved] else [])
  if additionalInfo ≠ [] then base ++ ". " ++ String.intercalate ". " additionalInfo ++ "."
  else base

/-- `getTransactionNarrative(transaction, playerId, histRosters,
histUsers, allSeasonsDrafts, allSeasonsPicks)`: the decision table on
`transaction.type` deriving the narrative for the subject player. -/
def getTransactionNarrative (dir : String → Option PlayerRec) (t : Transaction)
    (playerId : String) (histRosters : List RosterRec) (histUsers : List LeagueUser)
    (allSeasonsDrafts : Int → Option (List Draft))
    (allSeasonsPicks : String → Option (List DraftPickRecord)) (currentYear : Int) :
    Narrative :=
  let addedToRosterId := jsGet t.adds playerId
  let droppedFromRosterId := jsGet t.drops playerId
  let otherPlayersInvolved :=
    ((t.adds.map Prod.fst).filter (fun p => p ≠ playerId)).map (getPlayerNameById dir) ++
    ((t.drops.map Prod.fst).filter (fun p =>
      p ≠ playerId ∧ ¬truthyInt (jsGet t.adds p))).map (getPlayerNameById dir)
  let draftPicksInvolved := t.draft_picks.map (fun pk =>
    formatDraftPick dir pk histRosters histUsers allSeasonsDrafts allSeasonsPicks
      currentYear)
  let base := baseDescription otherPlayersInvolved draftPicksInvolved
  let withPickNote := fun (d : String) =>
    if t.draft_picks ≠ [] then
      d ++ " (trade included " ++ toString t.draft_picks.length ++ " draft pick(s))"
    else d
  if t.type = some "trade" then
    if truthyInt addedToRosterId then
      let toTeam := getManagerName (addedToRosterId.getD 0) histRosters histUsers
      if truthyInt droppedFromRosterId then
        let fromTeam := getManagerName (droppedFromRosterId.getD 0) histRosters histUsers
        let otherPlayersTraded : Int := (t.adds.length : Int) + (t.drops.length : Int) - 2
        let d := if 0 < otherPlayersTraded then
            "Traded from " ++ fromTeam ++ " to " ++ toTeam ++ " along with " ++
              toString otherPlayersTraded ++ " other player(s)/pick(s)"
          else "Traded from " ++ fromTeam ++ " to " ++ toTeam
        ⟨fromTeam, toTeam, base (withPickNote d)⟩
      else
        if 1 < t.roster_ids.length then
          let otherRosterId := t.roster_ids.find? (fun id => some id ≠ addedToRosterId)
          if truthyInt otherRosterId then
            let sourceTeam := getManagerName (otherRosterId.getD 0) histRosters histUsers
            ⟨sourceTeam, toTeam,
              base (withPickNote ("Acquired by " ++ toTeam ++ " in a trade with " ++
                sourceTeam))⟩
          else
            ⟨"Unknown", toTeam,
              base (withPickNote ("Acquired by " ++ toTeam ++
                " via trade (source not explicitly recorded)"))⟩
        else
          ⟨"Unknown", toTeam,
            base (withPickNote ("Acquired by " ++ toTeam ++
              " via trade (source not explicitly recorded)"))⟩
    else if truthyInt droppedFromRosterId then
      let fromTeam := getManagerName (droppedFromRosterId.getD 0) histRosters histUsers
      if 1 < t.roster_ids.length then
        let otherRosterId := t.roster_ids.find? (fun id => some id ≠ droppedFromRosterId)
        if truthyInt otherRosterId then
          let destinationTeam := getManagerName (otherRosterId.getD 0) histRosters histUsers
          ⟨fromTeam, destinationTeam,
            base (withPickNote ("Traded from " ++ fromTeam ++ " to " ++ destinationTeam))⟩
        else
          ⟨fromTeam, "Unknown",
            base (withPickNote ("Traded away by " ++ fromTeam ++
              " (destination not explicitly recorded)"))⟩
      else
        ⟨fromTeam, "Unknown",
          base (withPickNote ("Traded away by " ++ fromTeam ++
            " (destination not explicitly recorded)"))⟩
    else ⟨"", "", base ""⟩
  else if t.type = some "waiver" then
    if truthyInt addedToRosterId then
      let toTeam := getManagerName (addedToRosterId.getD 0) histRosters histUsers
      let d := match t.settings with
        | some s =>
          match s.waiver_bid with
          | some faabAmount =>
            "Claimed off waivers by " ++ toTeam ++ " for $" ++ toString faabAmount ++
              " FAAB"
          | none => "Claimed off waivers by " ++ toTeam
        | none => "Claimed off waivers by " ++ toTeam
      let d2 := match t.settings with
        | some s =>
          match s.waiver_priority with
          | some waiverPriority => d ++ " (waiver priority: " ++ toString waiverPriority ++ ")"
          | none => d
        | none => d
      ⟨"Waivers", toTeam, base d2⟩
    else if truthyInt droppedFromRosterId then
      let fromTeam := getManagerName (droppedFromRosterId.getD 0) histRosters histUsers
      ⟨fromTeam, "Waivers", base ("Waived by " ++ fromTeam)⟩
    else ⟨"", "", base ""⟩
  else if t.type = some "free_agent" then
    if truthyInt addedToRosterId then
      let toTeam := getManagerName (addedToRosterId.getD 0) histRosters histUsers
      let droppedPlayers := t.drops.length
      let d := if 0 < droppedPlayers then
          "Signed as free agent by " ++ toTeam ++ " (" ++ toString droppedPlayers ++
            " player(s) dropped)"
        else "Signed as free agent by " ++ toTeam
      ⟨"Free Agency", toTeam, base d⟩
    else if truthyInt droppedFromRosterId then
      let fromTeam := getManagerName (droppedFromRosterId.getD 0) histRosters histUsers
      ⟨fromTeam, "Free Agency", base ("Released to free agency by " ++ fromTeam)⟩
    else ⟨"", "", base ""⟩
  else if t.type = some "commissioner" then
    if truthyInt addedToRosterId then
      let toTeam := getManagerName (addedToRosterId.getD 0) histRosters histUsers
      ⟨"Commissioner", toTeam, base ("Added to " ++ toTeam ++ " by commissioner action")⟩
    else if truthyInt droppedFromRosterId then
      let fromTeam := getManagerName (droppedFromRosterId.getD 0) histRosters histUsers
      ⟨fromTeam, "Commissioner",
        base ("Removed from " ++ fromTeam ++ " by commissioner action")⟩
    else ⟨"", "", base ""⟩
  else if t.type = some "draft" then
    if truthyInt addedToRosterId then
      let toTeam := getManagerName (addedToRosterId.getD 0) histRosters histUsers
      let d := match t.metadata with
        | some md =>
          if truthyInt md.pick then
            "Drafted by " ++ toTeam ++ " (Round " ++ jsOrIntStr md.round "?" ++
              ", Pick " ++ toString (md.pick.getD 0) ++ ")"
          else "Drafted by " ++ toTeam
        | none => "Drafted by " ++ toTeam
      ⟨"Draft", toTeam, base d⟩
    else ⟨"", "", base ""⟩
  else
    ⟨"", "", base ("Involved in a " ++ jsOrString t.type "unknown" ++ " transaction")⟩

/-- One derived `PlayerTransactionEvent` (the locale-rendered `date`
string is presentation-only and recomputable from `timestamp`, so it is
not stored). -/
structure ProcessedTransaction where
  id : Option String
  type : Option String
  timestamp : Option Int
  season : Int
  leagueId : String
  fromTeam : String
  toTeam : String
  description : String
deriving Repr, DecidableEq

/-- The per-season dataset consumed by `fetchTransactions` once the
cache/fetch alternative is resolved: rosters, users and the season's
transactions (a rejected transactions fetch is already `[]` in the
source's inner catch). -/
structure SeasonBundle where
  rosters : List RosterRec
  users : List LeagueUser
  transactions : List Transaction
deriving Repr, DecidableEq

/-- One season of the `fetchTransactions` loop: filter the season's
transactions to those whose `adds` or `drops` contain the subject
player (truthy value), then narrate each, skipping any transaction
whose (truthy) id has been seen before and recording newly seen ids.
A season whose rosters/users load rejected (`bundle = none`) is
skipped whole. -/
def narrateStep (dir : String → Option PlayerRec) (pid : String)
    (allSeasonsDrafts : Int → Option (List Draft))
    (allSeasonsPicks : String → Option (List DraftPickRecord)) (currentYear : Int)
    (rosters : List RosterRec) (users : List LeagueUser) (season : Int)
    (leagueId : String) (st2 : List String × List ProcessedTransaction)
    (t : Transaction) : List String × List ProcessedTransaction :=
  if truthyStr t.transaction_id ∧ t.transaction_id.getD "" ∈ st2.1 then st2
  else
    let seen2 := if truthyStr t.transaction_id then
        st2.1 ++ [t.transaction_id.getD ""] else st2.1
    let n := getTransactionNarrative dir t pid rosters users allSeasonsDrafts
      allSeasonsPicks currentYear
    (seen2, st2.2 ++ [⟨t.transaction_id, t.type, t.status_updated, season, leagueId,
      n.fromTeam, n.toTeam, n.description⟩])

def processSeason (dir : String → Option PlayerRec) (pid : String)
    (allSeasonsDrafts : Int → Option (List Draft))
    (allSeasonsPicks : String → Option (List DraftPickRecord)) (currentYear : Int)
    (st : List String × List ProcessedTransaction) (season : Int) (leagueId : String)
    (bundle : Option SeasonBundle) : List String × List ProcessedTransaction :=
  match bundle with
  | none => st
  | some b =>
    let playerTransactions := b.transactions.filter (fun t =>
      truthyInt (jsGet t.adds pid) ∨ truthyInt (jsGet t.drops pid))
    playerTransactions.foldl
      (narrateStep dir pid allSeasonsDrafts allSeasonsPicks currentYear b.rosters
        b.users season leagueId) st

/-- The JS sort comparator `(a, b) => a.timestamp - b.timestamp` seen
through `Array.prototype.sort`: a pair of defined timestamps orders by
value; a pair involving an undefined timestamp yields `NaN`, which the
sort treats as "equal" (neither strictly precedes the other). -/
def tsLeB (a b : ProcessedTransaction) : Bool :=
  match a.timestamp, b.timestamp with
  | some x, some y => x ≤ y
  | _, _ => true

/-- `fetchTransactions` of `PlayerTradeHistoryModal.js` (data part):
walk the season→league-id map in order, accumulate deduplicated
narrated events, and stable-sort by the timestamp comparator. -/
def fetchTransactions (dir : String → Option PlayerRec) (pid : String)
    (seasonLeagueIds : List (Int × String))
    (data : Int → String → Option SeasonBundle)
    (allSeasonsDrafts : Int → Option (List Draft))
    (allSeasonsPicks : String → Option (List DraftPickRecord)) (currentYear : Int) :
    List ProcessedTransaction :=
  let st := seasonLeagueIds.foldl (fun st2 p =>
    processSeason dir pid allSeasonsDrafts allSeasonsPicks currentYear st2 p.1 p.2
      (data p.1 p.2)) ([], [])
  List.insertionSort (fun a b => tsLeB a b = true) st.2

/-- Number of produced events carrying the transaction id `tid`. -/
def countId (l : List ProcessedTransaction) (tid : String) : Nat :=
  l.countP (fun e => decide (e.id = some tid))

/-- The numeric value a defined timestamp sorts by (`getD 0` only ever
applied to defined timestamps in the theorems below). -/
def tsVal (a : ProcessedTransaction) : Int := a.timestamp.getD 0

/-- Ascending-timestamp order on events with defined timestamps. -/
def tsLeD (a b : ProcessedTransaction) : Prop := tsVal a ≤ tsVal b

instance : DecidableRel tsLeD := fun a b => inferInstanceAs (Decidable (tsVal a ≤ tsVal b))

instance : IsTotal ProcessedTransaction tsLeD := ⟨fun a b => le_total (tsVal a) (tsVal b)⟩

instance : IsTrans ProcessedTransaction tsLeD := ⟨fun _ _ _ h1 h2 => le_trans h1 h2⟩

/-! ### Concrete fixtures used by witnesses and counterexamples -/

/-- A directory holding a player whose name fields are both empty. -/
def samplePlayersBlank : String → Option PlayerRec :=
  fun p => if p = "X" then some ⟨some "", some ""⟩ else none

/-- A directory holding one fully named player. -/
def sampleDir : String → Option PlayerRec :=
  fun p => if p = "P9" then some ⟨some "Jay", some "Cutler"⟩ else none

def sampleRosters : List RosterRec := [⟨3, some "U3"⟩, ⟨4, some "U4"⟩]

def sampleUsers : List LeagueUser :=
  [⟨"U3", some "Alice", none⟩, ⟨"U4", some "Bob", none⟩]

def sampleDrafts : Int → Option (List Draft) :=
  fun y => if y = 2022 then some [⟨"D1"⟩] else none

def samplePicks : String → Option (List DraftPickRecord) :=
  fun d => if d = "D1" then some [⟨17, some 3, 5, some "P9"⟩] else none

def samplePickRef : DraftPickRef := ⟨some 2022, some 2, some 3, some 4, some 17⟩

/-- Two weeks of a two-roster league: roster 1 wins week 1 (100-90)
and loses week 2 (80-95). -/
def sampleMatchups : List MatchupRec :=
  [⟨1, 1, 1, 100, none⟩, ⟨1, 1, 2, 90, none⟩, ⟨2, 1, 1, 80, none⟩, ⟨2, 1, 2, 95, none⟩]

/-- A trade of player `P1` with a defined timestamp. -/
def sampleTransA : Transaction :=
  ⟨some "a", some "trade", some 5, [("P1", 2)], [("P1", 1)], [1, 2], [], none, none⟩

/-- A waiver claim of player `P1` with an undefined timestamp. -/
def sampleTransB : Transaction :=
  ⟨some "b", some "waiver", none, [("P1", 5)], [], [5], [], some ⟨some 12, none⟩, none⟩

/-- A season bundle holding both sample transactions, in this order. -/
def sampleBundle : SeasonBundle := ⟨sampleRosters, sampleUsers, [sampleTransA, sampleTransB]⟩

/-- The sample bundle with both timestamps defined (5 then 3). -/
def sampleBundleDefined : SeasonBundle :=
  ⟨sampleRosters, sampleUsers,
    [⟨some "a", some "trade", some 5, [("P1", 2)], [("P1", 1)], [1, 2], [], none, none⟩,
     ⟨some "b", some "waiver", some 3, [("P1", 5)], [], [5], [], some ⟨some 12, none⟩,
       none⟩]⟩

/-! ### Lemmas about the history walk -/

/-- The hop relation justified by some call of the fetch oracle. -/
def hopRel (f : Nat → String → FetchOutcome) (a b : String) : Prop :=
  ∃ k, f k a = FetchOutcome.league (some b)

theorem walkAux_ids_head (f : Nat → String → FetchOutcome) (fuel calls attempts : Nat)
    (leagueId : String) (acc : List String) (delays : List Nat) (h : acc ≠ []) :
    (walkAux f fuel calls attempts leagueId acc delays).ids.head? = acc.head? := by
  induction fuel generalizing calls attempts leagueId acc delays with
  | zero => rfl
  | succ n ih =>
    simp only [walkAux]
    rcases hf : f calls leagueId with _ | prev
    · by_cases h2 : 2 ≤ attempts + 1
      · simp [h2]
      · simpa [h2] using ih _ _ _ _ _ h
    · rcases prev with _ | p
      · rfl
      · have h3 : acc ++ [p] ≠ [] := by simp
        rw [ih _ _ _ _ _ h3]
        rcases acc with _ | ⟨a, l⟩
        · exact absurd rfl h
        · simp

theorem walkAux_ids_length (f : Nat → String → FetchOutcome) (fuel calls attempts : Nat)
    (leagueId : String) (acc : List String) (delays : List Nat) :
    (walkAux f fuel calls attempts leagueId acc delays).ids.length ≤ acc.length + fuel := by
  induction fuel generalizing calls attempts leagueId acc delays with
  | zero => simp [walkAux]
  | succ n ih =>
    simp only [walkAux]
    rcases hf : f calls leagueId with _ | prev
    · by_cases h2 : 2 ≤ attempts + 1
      · simp only [h2, if_true]
        exact Nat.le_add_right _ _
      · simp only [h2, if_false]
        calc (walkAux f n (calls + 1) (attempts + 1) leagueId acc _).ids.length
            ≤ acc.length + n := ih _ _ _ _ _
          _ ≤ acc.length + (n + 1) := by omega
    · rcases prev with _ | p
      · exact Nat.le_add_right _ _
      · calc (walkAux f n (calls + 1) (attempts + 1) p (acc ++ [p]) _).ids.length
            ≤ (acc ++ [p]).length + n := ih _ _ _ _ _
          _ = acc.length + (n + 1) := by simp; omega

theorem walkAux_ids_chain (f : Nat → String → FetchOutcome) (fuel calls attempts : Nat)
    (leagueId : String) (acc : List String) (delays : List Nat)
    (hch : List.Chain' (hopRel f) acc) (hlast : acc.getLast? = some leagueId) :
    List.Chain' (hopRel f) (walkAux f fuel calls attempts leagueId acc delays).ids := by
  induction fuel generalizing calls attempts leagueId acc delays with
  | zero => exact hch
  | succ n ih =>
    simp only [walkAux]
    rcases hf : f calls leagueId with _ | prev
    · by_cases h2 : 2 ≤ attempts + 1
      · simpa [h2] using hch
      · simpa [h2] using ih _ _ _ _ _ hch hlast
    · rcases prev with _ | p
      · exact hch
      · refine ih _ _ _ _ _ ?_ (List.getLast?_concat acc)
        refine List.Chain'.append hch (List.chain'_singleton p) ?_
        intro x hx y hy
        rw [hlast] at hx
        simp only [Option.mem_def, Option.some_inj] at hx
        simp only [List.head?_cons, Option.mem_def, Option.some_inj] at hy
        subst hx; subst hy
        exact ⟨calls, hf⟩

theorem walkAux_delays_extend (f : Nat → String → FetchOutcome) (fuel calls attempts : Nat)
    (leagueId : String) (acc : List String) (delays : List Nat) :
    ∃ suffix, (walkAux f fuel calls attempts leagueId acc delays).delays =
      delays ++ suffix := by
  induction fuel generalizing calls attempts leagueId acc delays with
  | zero => exact ⟨[], by simp [walkAux]⟩
  | succ n ih =>
    simp only [walkAux]
    rcases hf : f calls leagueId with _ | prev
    · by_cases h2 : 2 ≤ attempts + 1
      · by_cases ha : 0 < attempts
        · exact ⟨[500, 1000], by simp [h2, ha]⟩
        · exact ⟨[1000], by simp [h2, ha]⟩
      · by_cases ha : 0 < attempts
        · obtain ⟨s, hs⟩ := ih (calls + 1) (attempts + 1) leagueId acc
            (delays ++ [500] ++ [1000])
          exact ⟨[500, 1000] ++ s, by simpa [h2, ha] using hs⟩
        · obtain ⟨s, hs⟩ := ih (calls + 1) (attempts + 1) leagueId acc (delays ++ [1000])
          exact ⟨[1000] ++ s, by simpa [h2, ha] using hs⟩
    · rcases prev with _ | p
      · by_cases ha : 0 < attempts
        · exact ⟨[500], by simp [ha]⟩
        · exact ⟨[], by simp [ha]⟩
      · by_cases ha : 0 < attempts
        · obtain ⟨s, hs⟩ := ih (calls + 1) (attempts + 1) p (acc ++ [p]) (delays ++ [500])
          exact ⟨[500] ++ s, by simpa [ha] using hs⟩
        · obtain ⟨s, hs⟩ := ih (calls + 1) (attempts + 1) p (acc ++ [p]) delays
          exact ⟨s, by simpa [ha] using hs⟩

theorem walkAux_attempts_mono (f : Nat → String → FetchOutcome) (fuel calls attempts : Nat)
    (leagueId : String) (acc : List String) (delays : List Nat) :
    attempts ≤ (walkAux f fuel calls attempts leagueId acc delays).attemptsUsed := by
  induction fuel generalizing calls attempts leagueId acc delays with
  | zero => simp [walkAux]
  | succ n ih =>
    simp only [walkAux]
    rcases hf : f calls leagueId with _ | prev
    · by_cases h2 : 2 ≤ attempts + 1
      · simp [h2]
      · simp only [h2, if_false]
        exact le_trans (Nat.le_succ attempts) (ih _ _ _ _ _)
    · rcases prev with _ | p
      · simp
      · exact le_trans (Nat.le_succ attempts) (ih _ _ _ _ _)

/-- C10: for every starting league id and every behavior of the
league-fetch oracle, the returned id list starts with the starting id,
has at most 6 elements (start plus at most 5 hops), and each adjacent
pair is linked by a fetched `previous_league_id`. -/
theorem historicalLeagueIds_shape (f : Nat → String → FetchOutcome)
    (currentLeagueId : String) :
    (getHistoricalLeagueIds f currentLeagueId).ids.head? = some currentLeagueId ∧
    (getHistoricalLeagueIds f currentLeagueId).ids.length ≤ 6 ∧
    List.Chain' (hopRel f) (getHistoricalLeagueIds f currentLeagueId).ids := by
  refine ⟨?_, ?_, ?_⟩
  · simpa using walkAux_ids_head f 5 0 0 currentLeagueId [currentLeagueId] [] (by simp)
  · simpa using walkAux_ids_length f 5 0 0 currentLeagueId [currentLeagueId] []
  · exact walkAux_ids_chain f 5 0 0 currentLeagueId [currentLeagueId] []
      (List.chain'_singleton currentLeagueId) rfl

/-- C2: a fetch failure is counted as an attempt and applies the longer
1000ms delay; two consecutive failures stop the walk early with just
what has been collected; and for every oracle behavior the walk returns
a (best-effort) id list headed by the starting id — no error escapes. -/
theorem historicalLeagueIds_failure_policy (f : Nat → String → FetchOutcome)
    (currentLeagueId : String) :
    (f 0 currentLeagueId = FetchOutcome.err →
      (getHistoricalLeagueIds f currentLeagueId).delays.head? = some 1000 ∧
      1 ≤ (getHistoricalLeagueIds f currentLeagueId).attemptsUsed) ∧
    (f 0 currentLeagueId = FetchOutcome.err → f 1 currentLeagueId = FetchOutcome.err →
      getHistoricalLeagueIds f currentLeagueId =
        ⟨[currentLeagueId], [1000, 500, 1000], 2⟩) ∧
    (getHistoricalLeagueIds f currentLeagueId).ids.head? = some currentLeagueId := by
  refine ⟨fun h0 => ⟨?_, ?_⟩, fun h0 h1 => ?_, ?_⟩
  · have : getHistoricalLeagueIds f currentLeagueId =
        walkAux f 4 1 1 currentLeagueId [currentLeagueId] [1000] := by
      simp [getHistoricalLeagueIds, walkAux, h0]
    rw [this]
    obtain ⟨s, hs⟩ := walkAux_delays_extend f 4 1 1 currentLeagueId [currentLeagueId] [1000]
    rw [hs]; simp
  · have : getHistoricalLeagueIds f currentLeagueId =
        walkAux f 4 1 1 currentLeagueId [currentLeagueId] [1000] := by
      simp [getHistoricalLeagueIds, walkAux, h0]
    rw [this]
    exact walkAux_attempts_mono f 4 1 1 currentLeagueId [currentLeagueId] [1000]
  · simp [getHistoricalLeagueIds, walkAux, h0, h1]
  · simpa using walkAux_ids_head f 5 0 0 currentLeagueId [currentLeagueId] [] (by simp)

/-- Witness for C2 at the always-failing oracle: two consecutive
failures stop the walk after exactly two attempts with the collected
singleton list, and the failure delay of 1000ms was applied first. -/
theorem historicalLeagueIds_failure_policy_witness :
    getHistoricalLeagueIds (fun _ _ => FetchOutcome.err) "L1" =
      ⟨["L1"], [1000, 500, 1000], 2⟩ ∧
    (getHistoricalLeagueIds (fun _ _ => FetchOutcome.err) "L1").delays.head? = some 1000 := by
  have h := historicalLeagueIds_failure_policy (fun _ _ => FetchOutcome.err) "L1"
  exact ⟨h.2.1 rfl rfl, (h.1 rfl).1⟩

/-! ### The season reconciler skips matchups for future seasons (C6) -/

/-- C6: for a season strictly greater than the current NFL season the
reconciler returns an empty matchup sequence without invoking the
matchup fetch operation for any week, while league, users and rosters
are obtained as usual (live, since a future season is never cached). -/
theorem fetchSeasonData_future (api : SeasonApi) (cache : CacheSnapshot)
    (selectedSeason nflSeason : Int) (nflSeasonType : String)
    (h : nflSeason < selectedSeason) :
    fetchSeasonData api cache selectedSeason nflSeason nflSeasonType =
      ⟨api.getLeague, api.getLeagueUsers, api.getLeagueRosters, [], []⟩ := by
  have hnc : ¬ selectedSeason < nflSeason := by omega
  simp [fetchSeasonData, shouldUseCache, h, hnc]

/-- Witness for C6: season 2030 against current NFL season 2025. -/
theorem fetchSeasonData_future_witness :
    fetchSeasonData
        ⟨⟨some 2030, none⟩, [], [], fun _ => some [⟨1, 1, 1, 10, none⟩]⟩
        ⟨none, none, none, some [⟨1, 1, 2, 20, none⟩]⟩ 2030 2025 "regular" =
      ⟨⟨some 2030, none⟩, [], [], [], []⟩ :=
  fetchSeasonData_future _ _ 2030 2025 "regular" (by norm_num)

/-! ### The seasons-map backfill (C7) -/

theorem alookup_append_isSome (m l : List (Int × String)) (k : Int)
    (h : (alookup m k).isSome) : (alookup (m ++ l) k).isSome := by
  simp only [alookup, List.find?_append] at *
  rcases hm : m.find? (fun p => p.1 = k) with _ | v
  · rw [hm] at h; simp at h
  · simp [hm]

theorem backfill_step_preserves (lid : String) (m : List (Int × String)) (y k : Int)
    (h : (alookup m k).isSome) :
    (alookup (if alookup m y = none then m ++ [(y, lid)] else m) k).isSome := by
  by_cases hy : alookup m y = none
  · simpa [hy] using alookup_append_isSome m [(y, lid)] k h
  · simpa [hy] using h

theorem backfill_mem (lid : String) (ys : List Int) (m : List (Int × String)) (k : Int)
    (hk : k ∈ ys ∨ (alookup m k).isSome) :
    (alookup (ys.foldl (fun m2 y =>
      if alookup m2 y = none then m2 ++ [(y, lid)] else m2) m) k).isSome := by
  induction ys generalizing m with
  | nil =>
    rcases hk with hk | hk
    · simp at hk
    · simpa using hk
  | cons y ys ih =>
    simp only [List.foldl_cons]
    rcases hk with hk | hk
    · rcases List.mem_cons.mp hk with hk | hk
      · subst hk
        refine ih _ (Or.inr ?_)
        by_cases hy : alookup m k = none
        · simp only [hy, if_true]
          simp_all [alookup, List.find?_append]
        · simp only [hy]
          split
          · exact alookup_append_isSome m _ k (Option.isSome_iff_ne_none.mpr hy)
          · exact Option.isSome_iff_ne_none.mpr hy
      · exact ih _ (Or.inl hk)
    · exact ih _ (Or.inr (backfill_step_preserves lid m y k hk))

theorem alookup_isSome_mem_keys (m : List (Int × String)) (k : Int)
    (h : (alookup m k).isSome) : k ∈ m.map Prod.fst := by
  simp only [alookup, Option.isSome_map] at h
  rcases hm : m.find? (fun p => p.1 = k) with _ | v
  · rw [hm] at h; simp at h
  · have hv := List.find?_some hm
    have hmem := List.mem_of_find?_eq_some hm
    simp only [decide_eq_true_eq] at hv
    exact hv ▸ List.mem_map_of_mem Prod.fst hmem

theorem three_distinct_le_length {α : Type} [DecidableEq α] (l : List α) (a b c : α)
    (ha : a ∈ l) (hb : b ∈ l) (hc : c ∈ l) (hab : a ≠ b) (hac : a ≠ c) (hbc : b ≠ c) :
    3 ≤ l.length := by
  have hsub : ({a, b, c} : Finset α) ⊆ l.toFinset := by
    intro x hx
    simp only [Finset.mem_insert, Finset.mem_singleton] at hx
    rcases hx with rfl | rfl | rfl <;> simpa [List.mem_toFinset]
  have hcard : ({a, b, c} : Finset α).card = 3 := by
    rw [Finset.card_insert_of_not_mem (by simp [hab, hac]),
      Finset.card_insert_of_not_mem (by simp [hbc]), Finset.card_singleton]
  calc 3 = ({a, b, c} : Finset α).card := hcard.symm
    _ ≤ l.toFinset.card := Finset.card_le_card hsub
    _ ≤ l.length := List.toFinset_card_le l

/-- Helper: after the backfill the map always contains the current NFL
season and the two prior years, hence has at least three entries. -/
theorem buildSeasonsMap_backfill (leagueId : String) (historicalIds : List String)
    (scan : String → Option Int) (leagueSeason : Option Int) (nflSeason : Int) :
    (alookup (buildSeasonsMap leagueId historicalIds scan leagueSeason nflSeason)
      nflSeason).isSome ∧
    (alookup (buildSeasonsMap leagueId historicalIds scan leagueSeason nflSeason)
      (nflSeason - 1)).isSome ∧
    (alookup (buildSeasonsMap leagueId historicalIds scan leagueSeason nflSeason)
      (nflSeason - 2)).isSome ∧
    3 ≤ (buildSeasonsMap leagueId historicalIds scan leagueSeason nflSeason).length := by
  have h1 : (alookup (buildSeasonsMap leagueId historicalIds scan leagueSeason nflSeason)
      nflSeason).isSome := by
    unfold buildSeasonsMap
    exact backfill_mem leagueId _ _ _ (Or.inl (by simp))
  have h2 : (alookup (buildSeasonsMap leagueId historicalIds scan leagueSeason nflSeason)
      (nflSeason - 1)).isSome := by
    unfold buildSeasonsMap
    exact backfill_mem leagueId _ _ _ (Or.inl (by simp))
  have h3 : (alookup (buildSeasonsMap leagueId historicalIds scan leagueSeason nflSeason)
      (nflSeason - 2)).isSome := by
    unfold buildSeasonsMap
    exact backfill_mem leagueId _ _ _ (Or.inl (by simp))
  refine ⟨h1, h2, h3, ?_⟩
  have hlen := three_distinct_le_length
    ((buildSeasonsMap leagueId historicalIds scan leagueSeason nflSeason).map Prod.fst)
    nflSeason (nflSeason - 1) (nflSeason - 2)
    (alookup_isSome_mem_keys _ _ h1) (alookup_isSome_mem_keys _ _ h2)
    (alookup_isSome_mem_keys _ _ h3) (by omega) (by omega) (by omega)
  simpa using hlen

/-- Helper: the no-history walk (first fetch reports no previous
league) returns just the starting id. -/
theorem historicalLeagueIds_no_previous (f : Nat → String → FetchOutcome) (start : String)
    (h : f 0 start = FetchOutcome.league none) :
    (getHistoricalLeagueIds f start).ids = [start] := by
  simp [getHistoricalLeagueIds, walkAux, h]

/-- Helper: the seasons map built from the no-history walk result is
exactly the starting season plus the fallback years where absent, all
mapped to the starting league id. -/
theorem buildSeasonsMap_single (leagueId : String) (scan : String → Option Int)
    (leagueSeason : Option Int) (nflSeason : Int) :
    buildSeasonsMap leagueId [leagueId] scan leagueSeason nflSeason =
      (leagueSeason.getD nflSeason, leagueId) ::
        ([nflSeason, nflSeason - 1, nflSeason - 2].filter
          (fun y => y ≠ leagueSeason.getD nflSeason)).map (fun y => (y, leagueId)) := by
  have hd1 : nflSeason ≠ nflSeason - 1 := by omega
  have hd2 : nflSeason ≠ nflSeason - 2 := by omega
  have hd3 : nflSeason - 1 ≠ nflSeason - 2 := by omega
  have hstep : buildSeasonsMap leagueId [leagueId] scan leagueSeason nflSeason =
      [nflSeason, nflSeason - 1, nflSeason - 2].foldl (fun m y =>
        if alookup m y = none then m ++ [(y, leagueId)] else m)
        [(leagueSeason.getD nflSeason, leagueId)] := by
    simp [buildSeasonsMap, scanSeasonsMap, alookup, List.find?]
  rw [hstep]
  generalize leagueSeason.getD nflSeason = cur
  by_cases h1 : cur = nflSeason
  · subst h1
    simp [alookup, List.find?, List.filter, hd1, hd2, hd3, Ne.symm hd1, Ne.symm hd2,
      Ne.symm hd3]
  · by_cases h2 : cur = nflSeason - 1
    · subst h2
      simp [alookup, List.find?, List.filter, hd1, hd2, hd3, Ne.symm hd1, Ne.symm hd2,
        Ne.symm hd3]
    · by_cases h3 : cur = nflSeason - 2
      · subst h3
        simp [alookup, List.find?, List.filter, hd1, hd2, hd3, Ne.symm hd1, Ne.symm hd2,
          Ne.symm hd3]
      · simp [alookup, List.find?, List.filter, hd1, hd2, hd3, Ne.symm hd1, Ne.symm hd2,
          Ne.symm hd3, h1, h2, h3, Ne.symm h1, Ne.symm h2, Ne.symm h3]

theorem alookup_append_some (m l : List (Int × String)) (y : Int) (v : String)
    (h : alookup m y = some v) : alookup (m ++ l) y = some v := by
  simp only [alookup, List.find?_append] at *
  rcases hm : m.find? (fun p => decide (p.1 = y)) with _ | p
  · rw [hm] at h; simp at h
  · rw [hm] at h; simp_all

theorem alookup_append_single_ne (m : List (Int × String)) (k y : Int) (v : String)
    (hk : k ≠ y) : alookup (m ++ [(k, v)]) y = alookup m y := by
  simp only [alookup, List.find?_append]
  have hnone : List.find? (fun p => decide (p.1 = y)) [(k, v)] = none := by simp [hk]
  rw [hnone, Option.or_none]

theorem backfill_preserves_some (lid : String) (ys : List Int)
    (m : List (Int × String)) (y : Int) (v : String) (h : alookup m y = some v) :
    alookup (ys.foldl (fun m2 y2 =>
      if alookup m2 y2 = none then m2 ++ [(y2, lid)] else m2) m) y = some v := by
  induction ys generalizing m with
  | nil => exact h
  | cons y2 ys ih =>
    simp only [List.foldl_cons]
    refine ih _ ?_
    by_cases h2 : alookup m y2 = none
    · simpa [h2] using alookup_append_some m [(y2, lid)] y v h
    · simpa [h2] using h

theorem backfill_absent (lid : String) (ys : List Int) (m : List (Int × String))
    (y : Int) (hy : y ∈ ys) (habs : alookup m y = none) :
    alookup (ys.foldl (fun m2 y2 =>
      if alookup m2 y2 = none then m2 ++ [(y2, lid)] else m2) m) y = some lid := by
  induction ys generalizing m with
  | nil => simp at hy
  | cons y2 ys ih =>
    simp only [List.foldl_cons]
    by_cases heq : y2 = y
    · subst heq
      rw [if_pos habs]
      refine backfill_preserves_some lid ys _ y2 lid ?_
      have hfn : m.find? (fun p => decide (p.1 = y2)) = none := by
        simp only [alookup] at habs
        exact Option.map_eq_none'.mp habs
      simp [alookup, List.find?_append, hfn]
    · rcases List.mem_cons.mp hy with h3 | hmem
      · exact absurd h3.symm heq
      · by_cases h2 : alookup m y2 = none
        · rw [if_pos h2]
          refine ih _ hmem ?_
          rw [alookup_append_single_ne m y2 y lid heq]
          exact habs
        · rw [if_neg h2]
          exact ih _ hmem habs

/-- C7: the season-to-league-id map always comes back with the current
NFL season and the two prior years present (hence non-empty, at least
three seasons), any fallback year that the scan left unmapped being
backfilled with the starting league id; and a walk on a league with no
previous-league reference yields the singleton id list, whose map is
exactly the starting season plus the backfilled fallback years where
absent, each mapped to the starting league id. -/
theorem seasonsMap_guarantees (leagueId : String) (historicalIds : List String)
    (scan : String → Option Int) (leagueSeason : Option Int) (nflSeason : Int)
    (f : Nat → String → FetchOutcome) (start : String) :
    ((alookup (buildSeasonsMap leagueId historicalIds scan leagueSeason nflSeason)
        nflSeason).isSome ∧
      (alookup (buildSeasonsMap leagueId historicalIds scan leagueSeason nflSeason)
        (nflSeason - 1)).isSome ∧
      (alookup (buildSeasonsMap leagueId historicalIds scan leagueSeason nflSeason)
        (nflSeason - 2)).isSome ∧
      3 ≤ (buildSeasonsMap leagueId historicalIds scan leagueSeason nflSeason).length) ∧
    (∀ y ∈ [nflSeason, nflSeason - 1, nflSeason - 2],
      alookup (scanSeasonsMap leagueId historicalIds scan leagueSeason nflSeason) y =
        none →
      alookup (buildSeasonsMap leagueId historicalIds scan leagueSeason nflSeason) y =
        some leagueId) ∧
    (f 0 start = FetchOutcome.league none →
      (getHistoricalLeagueIds f start).ids = [start]) ∧
    buildSeasonsMap leagueId [leagueId] scan leagueSeason nflSeason =
      (leagueSeason.getD nflSeason, leagueId) ::
        ([nflSeason, nflSeason - 1, nflSeason - 2].filter
          (fun y => y ≠ leagueSeason.getD nflSeason)).map (fun y => (y, leagueId)) :=
  ⟨buildSeasonsMap_backfill leagueId historicalIds scan leagueSeason nflSeason,
    fun y hy habs => backfill_absent leagueId _ _ y hy habs,
    historicalLeagueIds_no_previous f start,
    buildSeasonsMap_single leagueId scan leagueSeason nflSeason⟩

/-- Witness for C7 at a league with no previous reference: starting
season 2025 (equal to the NFL season), so the map is the starting
season plus the two prior fallback years, all on the starting id. -/
theorem seasonsMap_guarantees_witness :
    buildSeasonsMap "L1" ["L1"] (fun _ => none) (some 2025) 2025 =
      [(2025, "L1"), (2024, "L1"), (2023, "L1")] ∧
    (getHistoricalLeagueIds (fun _ _ => FetchOutcome.league none) "L1").ids = ["L1"] ∧
    3 ≤ (buildSeasonsMap "L1" ["L1"] (fun _ => none) (some 2025) 2025).length := by
  have h := seasonsMap_guarantees "L1" ["L1"] (fun _ => none) (some 2025) 2025
    (fun _ _ => FetchOutcome.league none) "L1"
  refine ⟨?_, h.2.2.1 rfl, ?_⟩
  · rw [h.2.2.2]; rfl
  · exact h.1.2.2.2

/-! ### Player name resolution (C9) -/

/-- C9 counterexample: the narrative engine resolves ids through
`getPlayerNameById`, and for a directory-resolved player whose name
fields are both empty that returns the empty string, not
`"Unknown Player"` as the claim states. -/
theorem playerNameById_blank_counterexample :
    (samplePlayersBlank "X").isSome ∧
    getPlayerNameById samplePlayersBlank "X" = "" ∧
    ¬ getPlayerNameById samplePlayersBlank "X" = "Unknown Player" := by
  refine ⟨rfl, by decide, by decide⟩

/-- C9 (amended): `getPlayerNameById` renders `"First Last"` trimmed
for a directory-resolved id (the empty string when both fields are
empty) and `"Player <id>"` for an unresolved id; the
`"Unknown Player"` fallback belongs to `getPlayerName` (used for the
modal title), which returns it for a missing player object or an
all-empty name. -/
theorem playerNameResolution (dir : String → Option PlayerRec) (pId : String)
    (p : PlayerRec) :
    (dir pId = none → getPlayerNameById dir pId = "Player " ++ pId) ∧
    (dir pId = some p → getPlayerNameById dir pId =
      jsTrim (p.first_name.getD "" ++ " " ++ p.last_name.getD "")) ∧
    getPlayerName none = "Unknown Player" ∧
    (∀ q : PlayerRec, jsTrim (q.first_name.getD "" ++ " " ++ q.last_name.getD "") = "" →
      getPlayerName (some q) = "Unknown Player") ∧
    (∀ q : PlayerRec, jsTrim (q.first_name.getD "" ++ " " ++ q.last_name.getD "") ≠ "" →
      getPlayerName (some q) =
        jsTrim (q.first_name.getD "" ++ " " ++ q.last_name.getD "")) := by
  refine ⟨fun h => by simp [getPlayerNameById, h], fun h => by simp [getPlayerNameById, h],
    rfl, fun q hq => by simp [getPlayerName, hq], fun q hq => by simp [getPlayerName, hq]⟩

/-- Witness for C9 (amended) at concrete inputs. -/
theorem playerNameResolution_witness :
    getPlayerNameById samplePlayersBlank "42" = "Player 42" ∧
    getPlayerName (some ⟨some "Jay", some "Cutler"⟩) = "Jay Cutler" := by
  have h := playerNameResolution samplePlayersBlank "42" ⟨some "", some ""⟩
  have h2 := playerNameResolution samplePlayersBlank "42" ⟨some "Jay", some "Cutler"⟩
  refine ⟨h.1 (by decide), ?_⟩
  have h3 := h2.2.2.2.2 ⟨some "Jay", some "Cutler"⟩ (by decide)
  rw [h3]; decide

/-! ### Pick formatting (C3) -/

/-- C3: for a pick reference of a past season with a present overall
pick number, when the season's first draft has a pick record with the
same overall number (numeric comparison) carrying a selected player and
a truthy round, the formatted string is the drafted player's name
followed by the year, the drafted record's round (not the reference's)
and the draft slot, plus the ownership clause. -/
theorem formatDraftPick_past_resolved (dir : String → Option PlayerRec)
    (pick : DraftPickRef) (histRosters : List RosterRec) (histUsers : List LeagueUser)
    (allSeasonsDrafts : Int → Option (List Draft))
    (allSeasonsPicks : String → Option (List DraftPickRecord)) (currentYear : Int)
    (y pn rr : Int) (d : Draft) (ds : List Draft) (recs : List DraftPickRecord)
    (rec : DraftPickRecord) (pid : String)
    (hy : pick.season = some y) (hy0 : y ≠ 0) (hlt : y < currentYear)
    (hpn : pick.pick = some pn) (hpn0 : pn ≠ 0)
    (hd : allSeasonsDrafts y = some (d :: ds))
    (hp : allSeasonsPicks d.draft_id = some recs)
    (hfind : recs.find? (fun r => r.pick_no = pn) = some rec)
    (hpid : rec.player_id = some pid) (hpid0 : pid ≠ "")
    (hround : rec.round = some rr) (hrr : rr ≠ 0) :
    formatDraftPick dir pick histRosters histUsers allSeasonsDrafts allSeasonsPicks
        currentYear =
      getPlayerNameById dir pid ++ " (" ++ toString y ++ " Round " ++ toString rr ++
        " Pick " ++ toString rec.draft_slot ++ ")" ++
        ownershipNote
          (if truthyInt pick.original_owner_id then
            getManagerName (pick.original_owner_id.getD 0) histRosters histUsers
          else "Unknown")
          (if truthyInt pick.roster_id then
            getManagerName (pick.roster_id.getD 0) histRosters histUsers
          else "Unknown") := by
  simp [formatDraftPick, hy, hy0, hlt, hpn, hpn0, hd, hp, hfind, hpid, hpid0, hround,
    hrr, truthyStr, jsOrIntStr]

/-- Witness for C3: a 2022 pick reference labelled round 2 whose
drafted record says round 3, pick slot 5, player `P9` (Jay Cutler);
the output carries round 3, not the reference's round 2. -/
theorem formatDraftPick_past_resolved_witness :
    formatDraftPick sampleDir samplePickRef sampleRosters sampleUsers sampleDrafts
        samplePicks 2025 =
      getPlayerNameById sampleDir "P9" ++ " (" ++ toString (2022 : Int) ++ " Round " ++
        toString (3 : Int) ++ " Pick " ++ toString (5 : Int) ++ ")" ++
        ownershipNote
          (if truthyInt samplePickRef.original_owner_id then
            getManagerName (samplePickRef.original_owner_id.getD 0) sampleRosters
              sampleUsers
          else "Unknown")
          (if truthyInt samplePickRef.roster_id then
            getManagerName (samplePickRef.roster_id.getD 0) sampleRosters sampleUsers
          else "Unknown") :=
  formatDraftPick_past_resolved sampleDir samplePickRef sampleRosters sampleUsers
    sampleDrafts samplePicks 2025 2022 17 3 ⟨"D1"⟩ [] [⟨17, some 3, 5, some "P9"⟩]
    ⟨17, some 3, 5, some "P9"⟩ "P9" rfl (by decide) (by decide) rfl (by decide) rfl rfl
    (by decide) rfl (by decide) rfl (by decide)

/-! ### Narrative dedup (C4) -/

theorem countId_append (l1 l2 : List ProcessedTransaction) (tid : String) :
    countId (l1 ++ l2) tid = countId l1 tid + countId l2 tid := by
  simp [countId, List.countP_append]

theorem narrateStep_inv (dir : String → Option PlayerRec) (pid : String)
    (allSeasonsDrafts : Int → Option (List Draft))
    (allSeasonsPicks : String → Option (List DraftPickRecord)) (currentYear : Int)
    (rosters : List RosterRec) (users : List LeagueUser) (season : Int)
    (leagueId : String) (st : List String × List ProcessedTransaction)
    (t : Transaction) (tid : String) (htid : tid ≠ "")
    (hinv : countId st.2 tid = if tid ∈ st.1 then 1 else 0) :
    countId (narrateStep dir pid allSeasonsDrafts allSeasonsPicks currentYear
      rosters users season leagueId st t).2 tid =
    if tid ∈ (narrateStep dir pid allSeasonsDrafts allSeasonsPicks currentYear
      rosters users season leagueId st t).1 then 1 else 0 := by
  unfold narrateStep
  by_cases hskip : truthyStr t.transaction_id = true ∧ t.transaction_id.getD "" ∈ st.1
  · simpa [hskip] using hinv
  · simp only [hskip, if_false]
    rw [countId_append]
    by_cases hid : t.transaction_id = some tid
    · have htr : truthyStr t.transaction_id = true := by
        simp [truthyStr, hid, htid]
      have hnotin : tid ∉ st.1 := by
        intro hmem
        exact hskip ⟨htr, by simpa [hid] using hmem⟩
      rw [hinv]
      simp [countId, List.countP_cons, hnotin, hid, htr, truthyStr, htid]
    · have hz : countId [(⟨t.transaction_id, t.type, t.status_updated, season, leagueId,
          (getTransactionNarrative dir t pid rosters users allSeasonsDrafts
            allSeasonsPicks currentYear).fromTeam,
          (getTransactionNarrative dir t pid rosters users allSeasonsDrafts
            allSeasonsPicks currentYear).toTeam,
          (getTransactionNarrative dir t pid rosters users allSeasonsDrafts
            allSeasonsPicks currentYear).description⟩ : ProcessedTransaction)] tid
          = 0 := by
        simp [countId, List.countP_cons, hid]
      rw [hz, hinv]
      by_cases htr : truthyStr t.transaction_id = true
      · have hne : t.transaction_id.getD "" ≠ tid := by
          intro heq
          rcases hv : t.transaction_id with _ | v
          · rw [hv] at htr; simp [truthyStr] at htr
          · rw [hv] at heq
            simp only [Option.getD_some] at heq
            exact hid (by rw [hv, heq])
        have hne2 : tid ≠ t.transaction_id.getD "" := fun h => hne h.symm
        by_cases hmem : tid ∈ st.1 <;> simp [htr, hmem, hne2]
      · simp only [eq_false_of_ne_true htr, if_false]
        rfl

theorem narrateFold_inv (dir : String → Option PlayerRec) (pid : String)
    (allSeasonsDrafts : Int → Option (List Draft))
    (allSeasonsPicks : String → Option (List DraftPickRecord)) (currentYear : Int)
    (rosters : List RosterRec) (users : List LeagueUser) (season : Int)
    (leagueId : String) (ts : List Transaction)
    (st : List String × List ProcessedTransaction) (tid : String) (htid : tid ≠ "")
    (hinv : countId st.2 tid = if tid ∈ st.1 then 1 else 0) :
    countId (ts.foldl (narrateStep dir pid allSeasonsDrafts allSeasonsPicks currentYear
      rosters users season leagueId) st).2 tid =
    if tid ∈ (ts.foldl (narrateStep dir pid allSeasonsDrafts allSeasonsPicks currentYear
      rosters users season leagueId) st).1 then 1 else 0 := by
  induction ts generalizing st with
  | nil => exact hinv
  | cons t ts ih =>
    simp only [List.foldl_cons]
    exact ih _ (narrateStep_inv dir pid allSeasonsDrafts allSeasonsPicks currentYear
      rosters users season leagueId st t tid htid hinv)

theorem processSeason_inv (dir : String → Option PlayerRec) (pid : String)
    (allSeasonsDrafts : Int → Option (List Draft))
    (allSeasonsPicks : String → Option (List DraftPickRecord)) (currentYear : Int)
    (st : List String × List ProcessedTransaction) (season : Int) (leagueId : String)
    (bundle : Option SeasonBundle) (tid : String) (htid : tid ≠ "")
    (hinv : countId st.2 tid = if tid ∈ st.1 then 1 else 0) :
    countId (processSeason dir pid allSeasonsDrafts allSeasonsPicks currentYear st
      season leagueId bundle).2 tid =
    if tid ∈ (processSeason dir pid allSeasonsDrafts allSeasonsPicks currentYear st
      season leagueId bundle).1 then 1 else 0 := by
  rcases bundle with _ | b
  · exact hinv
  · exact narrateFold_inv dir pid allSeasonsDrafts allSeasonsPicks currentYear b.rosters
      b.users season leagueId _ st tid htid hinv

theorem seasonsFold_inv (dir : String → Option PlayerRec) (pid : String)
    (allSeasonsDrafts : Int → Option (List Draft))
    (allSeasonsPicks : String → Option (List DraftPickRecord)) (currentYear : Int)
    (data : Int → String → Option SeasonBundle) (slids : List (Int × String))
    (st : List String × List ProcessedTransaction) (tid : String) (htid : tid ≠ "")
    (hinv : countId st.2 tid = if tid ∈ st.1 then 1 else 0) :
    countId (slids.foldl (fun st2 p =>
      processSeason dir pid allSeasonsDrafts allSeasonsPicks currentYear st2 p.1 p.2
        (data p.1 p.2)) st).2 tid =
    if tid ∈ (slids.foldl (fun st2 p =>
      processSeason dir pid allSeasonsDrafts allSeasonsPicks currentYear st2 p.1 p.2
        (data p.1 p.2)) st).1 then 1 else 0 := by
  induction slids generalizing st with
  | nil => exact hinv
  | cons p ps ih =>
    simp only [List.foldl_cons]
    exact ih _ (processSeason_inv dir pid allSeasonsDrafts allSeasonsPicks currentYear
      st p.1 p.2 (data p.1 p.2) tid htid hinv)

/-- C4: transactions are deduplicated by id across all processed
seasons — for every (non-empty) transaction id, the narrative engine
emits at most one event carrying that id, no matter how often the same
transaction is returned across season aliases. -/
theorem fetchTransactions_dedup (dir : String → Option PlayerRec) (pid : String)
    (seasonLeagueIds : List (Int × String)) (data : Int → String → Option SeasonBundle)
    (allSeasonsDrafts : Int → Option (List Draft))
    (allSeasonsPicks : String → Option (List DraftPickRecord)) (currentYear : Int)
    (tid : String) (htid : tid ≠ "") :
    countId (fetchTransactions dir pid seasonLeagueIds data allSeasonsDrafts
      allSeasonsPicks currentYear) tid ≤ 1 := by
  have h := seasonsFold_inv dir pid allSeasonsDrafts allSeasonsPicks currentYear data
    seasonLeagueIds ([], []) tid htid (by simp [countId])
  have hp : countId (fetchTransactions dir pid seasonLeagueIds data allSeasonsDrafts
      allSeasonsPicks currentYear) tid =
      countId (seasonLeagueIds.foldl (fun st2 p =>
        processSeason dir pid allSeasonsDrafts allSeasonsPicks currentYear st2 p.1 p.2
          (data p.1 p.2)) ([], [])).2 tid := by
    unfold fetchTransactions countId
    exact List.Perm.countP_eq _ (List.perm_insertionSort _ _)
  rw [hp, h]
  split <;> omega

/-- Witness for C4: the same transaction id fed through two aliased
seasons yields exactly one event. -/
theorem fetchTransactions_dedup_witness :
    countId (fetchTransactions sampleDir "P1" [(2024, "L1"), (2023, "L1")]
      (fun _ _ => some ⟨sampleRosters, sampleUsers,
        [⟨some "a", some "trade", some 5, [("P1", 2)], [("P1", 1)], [1, 2], [], none,
          none⟩]⟩)
      sampleDrafts samplePicks 2025) "a" ≤ 1 :=
  fetchTransactions_dedup sampleDir "P1" [(2024, "L1"), (2023, "L1")]
    (fun _ _ => some ⟨sampleRosters, sampleUsers,
      [⟨some "a", some "trade", some 5, [("P1", 2)], [("P1", 1)], [1, 2], [], none,
        none⟩]⟩)
    sampleDrafts samplePicks 2025 "a" (by decide)

/-! ### Event ordering (C5) -/

/-- C5 counterexample: one season yielding a timestamp-5 event followed
by an undefined-timestamp event.  The JS comparator
`a.timestamp - b.timestamp` is `NaN` on the undefined pair, which the
(stable) sort treats as equal, so the undefined-timestamp event stays
last — it is not placed first, contradicting the claim. -/
theorem fetchTransactions_undefined_last_counterexample :
    (fetchTransactions sampleDir "P1" [(2024, "L1")] (fun _ _ => some sampleBundle)
      sampleDrafts samplePicks 2025).map (fun e => e.timestamp) = [some 5, none] ∧
    ¬ (fetchTransactions sampleDir "P1" [(2024, "L1")] (fun _ _ => some sampleBundle)
      sampleDrafts samplePicks 2025).map (fun e => e.timestamp) = [none, some 5] := by
  refine ⟨by decide, by decide⟩

theorem orderedInsert_congr {α : Type} (r r2 : α → α → Prop) [DecidableRel r]
    [DecidableRel r2] (a : α) (l : List α) (h : ∀ b ∈ l, (r a b ↔ r2 a b)) :
    List.orderedInsert r a l = List.orderedInsert r2 a l := by
  induction l with
  | nil => rfl
  | cons b l ih =>
    simp only [List.orderedInsert]
    by_cases hr : r a b
    · rw [if_pos hr, if_pos ((h b (List.mem_cons_self b l)).mp hr)]
    · rw [if_neg hr, if_neg (fun h2 => hr ((h b (List.mem_cons_self b l)).mpr h2)),
        ih (fun c hc => h c (List.mem_cons_of_mem b hc))]

theorem insertionSort_congr {α : Type} (r r2 : α → α → Prop) [DecidableRel r]
    [DecidableRel r2] (l : List α) (h : ∀ a ∈ l, ∀ b ∈ l, (r a b ↔ r2 a b)) :
    List.insertionSort r l = List.insertionSort r2 l := by
  induction l with
  | nil => rfl
  | cons a l ih =>
    simp only [List.insertionSort]
    rw [ih (fun x hx y hy => h x (List.mem_cons_of_mem a hx) y (List.mem_cons_of_mem a hy))]
    refine orderedInsert_congr r r2 a _ (fun b hb => ?_)
    have hbl : b ∈ l := (List.perm_insertionSort r2 l).subset hb
    exact h a (List.mem_cons_self a l) b (List.mem_cons_of_mem a hbl)

theorem narrateFold_ts (dir : String → Option PlayerRec) (pid : String)
    (allSeasonsDrafts : Int → Option (List Draft))
    (allSeasonsPicks : String → Option (List DraftPickRecord)) (currentYear : Int)
    (rosters : List RosterRec) (users : List LeagueUser) (season : Int)
    (leagueId : String) (ts : List Transaction)
    (st : List String × List ProcessedTransaction)
    (hts : ∀ t ∈ ts, t.status_updated.isSome)
    (hst : ∀ e ∈ st.2, e.timestamp.isSome) :
    ∀ e ∈ (ts.foldl (narrateStep dir pid allSeasonsDrafts allSeasonsPicks currentYear
      rosters users season leagueId) st).2, e.timestamp.isSome := by
  induction ts generalizing st with
  | nil => exact hst
  | cons t ts ih =>
    simp only [List.foldl_cons]
    refine ih _ (fun t2 ht2 => hts t2 (List.mem_cons_of_mem t ht2)) ?_
    intro e he
    unfold narrateStep at he
    by_cases hskip : truthyStr t.transaction_id = true ∧ t.transaction_id.getD "" ∈ st.1
    · rw [if_pos hskip] at he
      exact hst e he
    · rw [if_neg hskip] at he
      simp only [List.mem_append, List.mem_singleton] at he
      rcases he with he | he
      · exact hst e he
      · subst he
        exact hts t (List.mem_cons_self t ts)

theorem seasonsFold_ts (dir : String → Option PlayerRec) (pid : String)
    (allSeasonsDrafts : Int → Option (List Draft))
    (allSeasonsPicks : String → Option (List DraftPickRecord)) (currentYear : Int)
    (data : Int → String → Option SeasonBundle) (slids : List (Int × String))
    (st : List String × List ProcessedTransaction)
    (hdef : ∀ s lid b, data s lid = some b → ∀ t ∈ b.transactions,
      t.status_updated.isSome)
    (hst : ∀ e ∈ st.2, e.timestamp.isSome) :
    ∀ e ∈ (slids.foldl (fun st2 p =>
      processSeason dir pid allSeasonsDrafts allSeasonsPicks currentYear st2 p.1 p.2
        (data p.1 p.2)) st).2, e.timestamp.isSome := by
  induction slids generalizing st with
  | nil => exact hst
  | cons p ps ih =>
    simp only [List.foldl_cons]
    refine ih _ ?_
    unfold processSeason
    rcases hb : data p.1 p.2 with _ | b
    · exact hst
    · refine narrateFold_ts dir pid allSeasonsDrafts allSeasonsPicks currentYear
        b.rosters b.users p.1 p.2 _ st (fun t ht => ?_) hst
      exact hdef p.1 p.2 b hb t (List.mem_filter.mp ht).1

/-- C5 (amended): the engine stable-sorts the events by the comparator
`a.timestamp - b.timestamp`; undefined timestamps compare as equal to
everything (`NaN`), so they keep their positions instead of moving to
the front.  When every fetched transaction carries a defined
`status_updated`, the produced sequence is sorted ascending by
timestamp; and the sort is always a permutation of the accumulated
events. -/
theorem fetchTransactions_sorted (dir : String → Option PlayerRec) (pid : String)
    (seasonLeagueIds : List (Int × String)) (data : Int → String → Option SeasonBundle)
    (allSeasonsDrafts : Int → Option (List Draft))
    (allSeasonsPicks : String → Option (List DraftPickRecord)) (currentYear : Int)
    (hdef : ∀ s lid b, data s lid = some b → ∀ t ∈ b.transactions,
      t.status_updated.isSome) :
    List.Pairwise tsLeD (fetchTransactions dir pid seasonLeagueIds data allSeasonsDrafts
      allSeasonsPicks currentYear) ∧
    (fetchTransactions dir pid seasonLeagueIds data allSeasonsDrafts allSeasonsPicks
      currentYear).Perm
      ((seasonLeagueIds.foldl (fun st2 p =>
        processSeason dir pid allSeasonsDrafts allSeasonsPicks currentYear st2 p.1 p.2
          (data p.1 p.2)) ([], [])).2) := by
  have hall := seasonsFold_ts dir pid allSeasonsDrafts allSeasonsPicks currentYear data
    seasonLeagueIds ([], []) hdef (by simp)
  constructor
  · have hcongr : fetchTransactions dir pid seasonLeagueIds data allSeasonsDrafts
        allSeasonsPicks currentYear =
        List.insertionSort tsLeD ((seasonLeagueIds.foldl (fun st2 p =>
          processSeason dir pid allSeasonsDrafts allSeasonsPicks currentYear st2 p.1 p.2
            (data p.1 p.2)) ([], [])).2) := by
      unfold fetchTransactions
      refine insertionSort_congr _ _ _ (fun a ha b hb => ?_)
      have ha2 := hall a ha
      have hb2 := hall b hb
      rcases hx : a.timestamp with _ | x
      · rw [hx] at ha2; simp at ha2
      · rcases hy : b.timestamp with _ | y
        · rw [hy] at hb2; simp at hb2
        · simp [tsLeB, tsLeD, tsVal, hx, hy]
    rw [hcongr]
    exact List.sorted_insertionSort tsLeD _
  · unfold fetchTransactions
    exact List.perm_insertionSort _ _

/-! ### Win rate (C1) -/

theorem winStep_eq (matchups : List MatchupRec) (rosterId : Int) (w t : Nat)
    (tm : MatchupRec) :
    winStep matchups rosterId (w, t) tm =
      (w + (if winP matchups rosterId tm then 1 else 0),
       t + (if gameP matchups rosterId tm then 1 else 0)) := by
  unfold winStep winP gameP
  by_cases hlen : (groupOf matchups (tm.week, tm.matchup_id)).length < 2
  · have h2 : ¬ 2 ≤ (groupOf matchups (tm.week, tm.matchup_id)).length := by omega
    simp [hlen, h2]
  · have h2 : 2 ≤ (groupOf matchups (tm.week, tm.matchup_id)).length := by omega
    simp only [if_neg hlen, h2, decide_true_eq_true, Bool.true_and]
    rcases hf : (groupOf matchups (tm.week, tm.matchup_id)).find? (oppP rosterId)
      with _ | opp
    · simp [hf]
    · simp only [hf]
      by_cases hwin : opp.points < tm.points <;> simp [hwin]

theorem winRate_foldl (matchups : List MatchupRec) (rosterId : Int)
    (l : List MatchupRec) (w t : Nat) :
    l.foldl (winStep matchups rosterId) (w, t) =
      (w + l.countP (winP matchups rosterId), t + l.countP (gameP matchups rosterId)) := by
  induction l generalizing w t with
  | nil => simp
  | cons tm l ih =>
    simp only [List.foldl_cons, winStep_eq]
    rw [ih]
    rw [List.countP_cons, List.countP_cons]
    refine Prod.ext ?_ ?_ <;> simp <;> omega

theorem countP_one_find? {α : Type} (p : α → Bool) (l : List α) (x : α)
    (hc : l.countP p = 1) (hx : x ∈ l) (hpx : p x = true) : l.find? p = some x := by
  induction l with
  | nil => simp at hx
  | cons a l ih =>
    rw [List.countP_cons] at hc
    by_cases hpa : p a = true
    · rw [List.find?_cons_of_pos _ hpa]
      have hl0 : l.countP p = 0 := by
        rw [if_pos hpa] at hc; omega
      rcases List.mem_cons.mp hx with rfl | hxl
      · rfl
      · exact absurd hpx (by simpa using List.countP_eq_zero.mp hl0 x hxl)
    · rw [List.find?_cons_of_neg _ hpa]
      refine ih ?_ ?_
      · rw [if_neg hpa] at hc; omega
      · rcases List.mem_cons.mp hx with rfl | hxl
        · exact absurd hpx hpa
        · exact hxl

theorem group_length_two (g : List MatchupRec) (rosterId : Int)
    (h1 : g.countP (tgtP rosterId) = 1) (h2 : g.countP (oppP rosterId) = 1) :
    g.length = 2 := by
  have := List.length_eq_countP_add_countP (tgtP rosterId) g
  have hcongr : g.countP (fun a => decide ¬tgtP rosterId a = true) =
      g.countP (oppP rosterId) :=
    List.countP_congr (fun x _ => by simp [tgtP, oppP])
  omega

theorem winP_imp_gameP (matchups : List MatchupRec) (rosterId : Int) (tm : MatchupRec)
    (h : winP matchups rosterId tm = true) : gameP matchups rosterId tm = true := by
  simp only [winP] at h
  simp only [gameP]
  rcases hf : (groupOf matchups (tm.week, tm.matchup_id)).find? (oppP rosterId)
    with _ | opp
  · rw [hf] at h; simp at h
  · rw [hf] at h
    simp only [Bool.and_eq_true] at h
    simp [hf, h.1]

theorem dedupFirstGo_congr {α : Type} [DecidableEq α] :
    ∀ (n m : Nat) (l : List α), l.length ≤ n → l.length ≤ m →
      dedupFirstGo n l = dedupFirstGo m l := by
  intro n
  induction n with
  | zero =>
    intro m l hn _
    rcases l with _ | ⟨a, l⟩
    · cases m <;> rfl
    · simp at hn
  | succ n ih =>
    intro m l hn hm
    rcases l with _ | ⟨a, l⟩
    · cases m <;> rfl
    · rcases m with _ | m
      · simp at hm
      · simp only [dedupFirstGo, List.cons.injEq, true_and]
        refine ih m _ ?_ ?_ <;>
          calc (l.filter (fun b => b ≠ a)).length ≤ l.length :=
              List.length_filter_le _ _
            _ ≤ _ := by simp_all [Nat.succ_le_succ_iff]

theorem dedupFirst_cons {α : Type} [DecidableEq α] (a : α) (l : List α) :
    dedupFirst (a :: l) = a :: dedupFirst (l.filter (fun b => b ≠ a)) := by
  unfold dedupFirst
  simp only [List.length_cons, dedupFirstGo, List.cons.injEq, true_and]
  exact dedupFirstGo_congr _ _ _ (List.length_filter_le _ _) le_rfl

theorem dedupFirst_eq_self {α : Type} [DecidableEq α] (l : List α) (h : l.Nodup) :
    dedupFirst l = l := by
  induction l with
  | nil => rfl
  | cons a l ih =>
    rw [dedupFirst_cons]
    have ha : a ∉ l := (List.nodup_cons.mp h).1
    have hfil : l.filter (fun b => b ≠ a) = l :=
      List.filter_eq_self.mpr (fun b hb => by
        simp only [ne_eq, decide_not, Bool.not_eq_true', decide_eq_false_iff_not]
        exact fun hba => ha (hba ▸ hb))
    rw [hfil, ih (List.nodup_cons.mp h).2]

theorem count_keys_eq (matchups : List MatchupRec) (rosterId : Int) (k : Int × Int) :
    (matchups.filter (tgtP rosterId)).countP
        (fun tm => decide ((tm.week, tm.matchup_id) = k)) =
      (groupOf matchups k).countP (tgtP rosterId) := by
  unfold groupOf
  rw [List.countP_filter, List.countP_filter]
  refine List.countP_congr (fun x _ => ?_)
  rcases k with ⟨kw, km⟩
  simp only [Bool.and_eq_true, decide_eq_true_eq, Prod.mk.injEq]
  tauto

theorem nodup_of_countP_le_one {α : Type} [DecidableEq α] (l : List α)
    (h : ∀ a ∈ l, l.countP (fun x => decide (x = a)) ≤ 1) : l.Nodup := by
  induction l with
  | nil => simp
  | cons a l ih =>
    rw [List.nodup_cons]
    refine ⟨fun hal => ?_, ih (fun b hb => ?_)⟩
    · have h1 := h a (List.mem_cons_self a l)
      rw [List.countP_cons, if_pos (show decide (a = a) = true by simp)] at h1
      have h2 : 0 < l.countP (fun x => decide (x = a)) :=
        List.countP_pos_iff.mpr ⟨a, hal, by simp⟩
      omega
    · have h1 := h b (List.mem_cons_of_mem a hb)
      rw [List.countP_cons] at h1
      omega

theorem keys_nodup (matchups : List MatchupRec) (rosterId : Int)
    (H : ∀ m ∈ matchups, tgtP rosterId m = true →
      (groupOf matchups (m.week, m.matchup_id)).countP (tgtP rosterId) = 1 ∧
      (groupOf matchups (m.week, m.matchup_id)).countP (oppP rosterId) = 1) :
    ((matchups.filter (tgtP rosterId)).map (fun m => (m.week, m.matchup_id))).Nodup := by
  refine nodup_of_countP_le_one _ (fun k _ => ?_)
  rw [List.countP_map]
  have hcongr : ((matchups.filter (tgtP rosterId)).countP
      ((fun x => decide (x = k)) ∘ fun m => (m.week, m.matchup_id))) =
      (matchups.filter (tgtP rosterId)).countP
        (fun tm => decide ((tm.week, tm.matchup_id) = k)) :=
    List.countP_congr (fun x _ => by simp [Function.comp])
  rw [hcongr, count_keys_eq]
  by_cases hex : ∃ m ∈ matchups.filter (tgtP rosterId), (m.week, m.matchup_id) = k
  · obtain ⟨m, hm, hk⟩ := hex
    have hmem := List.mem_filter.mp hm
    have h1 := (H m hmem.1 hmem.2).1
    rw [← hk, h1]
  · have h0 : (groupOf matchups k).countP (tgtP rosterId) = 0 := by
      rw [← count_keys_eq]
      refine List.countP_eq_zero.mpr (fun m hm => ?_)
      simp only [decide_eq_true_eq]
      exact fun hk => hex ⟨m, hm, hk⟩
    rw [h0]
    omega

theorem find_target (matchups : List MatchupRec) (rosterId : Int) (tm : MatchupRec)
    (hmem : tm ∈ matchups) (htgt : tgtP rosterId tm = true)
    (h1 : (groupOf matchups (tm.week, tm.matchup_id)).countP (tgtP rosterId) = 1) :
    (groupOf matchups (tm.week, tm.matchup_id)).find? (tgtP rosterId) = some tm := by
  refine countP_one_find? _ _ _ h1 ?_ htgt
  unfold groupOf
  exact List.mem_filter.mpr ⟨hmem, by simp⟩

theorem pointwise_game (matchups : List MatchupRec) (rosterId : Int) (tm : MatchupRec)
    (hmem : tm ∈ matchups) (htgt : tgtP rosterId tm = true)
    (h1 : (groupOf matchups (tm.week, tm.matchup_id)).countP (tgtP rosterId) = 1)
    (h2 : (groupOf matchups (tm.week, tm.matchup_id)).countP (oppP rosterId) = 1) :
    gameP matchups rosterId tm = specGameAt matchups rosterId (tm.week, tm.matchup_id) ∧
    winP matchups rosterId tm = specWinAt matchups rosterId (tm.week, tm.matchup_id) := by
  have hlen : (groupOf matchups (tm.week, tm.matchup_id)).length = 2 :=
    group_length_two _ _ h1 h2
  have hsome : ((groupOf matchups (tm.week, tm.matchup_id)).find?
      (oppP rosterId)).isSome := by
    have hpos : 0 < (groupOf matchups (tm.week, tm.matchup_id)).countP (oppP rosterId) :=
      by omega
    obtain ⟨x, hx, hpx⟩ := List.countP_pos_iff.mp hpos
    exact List.find?_isSome.mpr ⟨x, hx, hpx⟩
  obtain ⟨opp, hopp⟩ := Option.isSome_iff_exists.mp hsome
  have htf := find_target matchups rosterId tm hmem htgt h1
  constructor
  · simp [gameP, specGameAt, hopp, hlen]
  · simp [winP, specWinAt, hopp, htf, hlen]

theorem spec_counts (matchups : List MatchupRec) (rosterId : Int)
    (H : ∀ m ∈ matchups, tgtP rosterId m = true →
      (groupOf matchups (m.week, m.matchup_id)).countP (tgtP rosterId) = 1 ∧
      (groupOf matchups (m.week, m.matchup_id)).countP (oppP rosterId) = 1) :
    specWins matchups rosterId =
      (matchups.filter (tgtP rosterId)).countP (winP matchups rosterId) ∧
    specGames matchups rosterId =
      (matchups.filter (tgtP rosterId)).countP (gameP matchups rosterId) := by
  unfold specWins specGames targetGameKeys
  rw [dedupFirst_eq_self _ (keys_nodup matchups rosterId H)]
  rw [List.countP_map, List.countP_map]
  constructor
  · refine (List.countP_congr (fun tm htm => ?_)).symm
    have hmem := List.mem_filter.mp htm
    have hp := pointwise_game matchups rosterId tm hmem.1 hmem.2
      (H tm hmem.1 hmem.2).1 (H tm hmem.1 hmem.2).2
    rw [Function.comp_apply, ← hp.2]
  · refine (List.countP_congr (fun tm htm => ?_)).symm
    have hmem := List.mem_filter.mp htm
    have hp := pointwise_game matchups rosterId tm hmem.1 hmem.2
      (H tm hmem.1 hmem.2).1 (H tm hmem.1 hmem.2).2
    rw [Function.comp_apply, ← hp.1]

/-- C1: for a non-empty matchup list where every group keyed by
`(week, matchup_id)` that contains target-roster records contains
exactly one of them and exactly one record of another roster, the win
rate equals `100 * wins / totalGames` over the grouped games (a win
being a strictly greater score than the designated opponent's), is 0
when there are no games with an opponent, and always lies in
`[0, 100]`. -/
theorem calculateWinRate_spec (matchups : List MatchupRec) (rosterId : Int)
    (hne : matchups ≠ [])
    (H : ∀ m ∈ matchups, tgtP rosterId m = true →
      (groupOf matchups (m.week, m.matchup_id)).countP (tgtP rosterId) = 1 ∧
      (groupOf matchups (m.week, m.matchup_id)).countP (oppP rosterId) = 1) :
    calculateWinRate matchups rosterId =
      (if 0 < specGames matchups rosterId then
        100 * (specWins matchups rosterId : Rat) / (specGames matchups rosterId : Rat)
      else 0) ∧
    0 ≤ calculateWinRate matchups rosterId ∧
    calculateWinRate matchups rosterId ≤ 100 := by
  by_cases htm : matchups.filter (tgtP rosterId) = []
  · have hG : specGames matchups rosterId = 0 := by
      unfold specGames targetGameKeys
      rw [htm]
      simp [dedupFirst, dedupFirstGo]
    have hcalc : calculateWinRate matchups rosterId = 0 := by
      simp [calculateWinRate, hne, htm]
    rw [hcalc, hG]
    norm_num
  · obtain ⟨hw, hg⟩ := spec_counts matchups rosterId H
    have hfold := winRate_foldl matchups rosterId (matchups.filter (tgtP rosterId)) 0 0
    simp only [Nat.zero_add] at hfold
    have hcalc : calculateWinRate matchups rosterId =
        if 0 < (matchups.filter (tgtP rosterId)).countP (gameP matchups rosterId) then
          (((matchups.filter (tgtP rosterId)).countP (winP matchups rosterId) : Rat) /
            ((matchups.filter (tgtP rosterId)).countP (gameP matchups rosterId) : Rat)) *
            100
        else 0 := by
      simp only [calculateWinRate, if_neg hne, if_neg htm, hfold]
    have hWT : (matchups.filter (tgtP rosterId)).countP (winP matchups rosterId) ≤
        (matchups.filter (tgtP rosterId)).countP (gameP matchups rosterId) :=
      List.countP_mono_left (fun x _ => winP_imp_gameP matchups rosterId x)
    rcases Nat.eq_zero_or_pos
        ((matchups.filter (tgtP rosterId)).countP (gameP matchups rosterId)) with hT | hT
    · rw [hcalc, hw, hg, hT]
      norm_num
    · have hTQ : (0 : Rat) <
          ((matchups.filter (tgtP rosterId)).countP (gameP matchups rosterId) : Rat) := by
        exact_mod_cast hT
      have hWQ : (((matchups.filter (tgtP rosterId)).countP (winP matchups rosterId)) :
          Rat) ≤
          ((matchups.filter (tgtP rosterId)).countP (gameP matchups rosterId) : Rat) := by
        exact_mod_cast hWT
      have hdiv : (((matchups.filter (tgtP rosterId)).countP (winP matchups rosterId)) :
          Rat) /
          ((matchups.filter (tgtP rosterId)).countP (gameP matchups rosterId) : Rat) ≤
          1 := (div_le_one hTQ).mpr hWQ
      refine ⟨?_, ?_, ?_⟩
      · rw [hcalc, hw, hg, if_pos hT, if_pos hT, div_mul_eq_mul_div, mul_comm]
      · rw [hcalc, if_pos hT]
        positivity
      · rw [hcalc, if_pos hT]
        calc (((matchups.filter (tgtP rosterId)).countP (winP matchups rosterId)) : Rat) /
              ((matchups.filter (tgtP rosterId)).countP (gameP matchups rosterId) : Rat) *
              100 ≤ 1 * 100 := by
              exact mul_le_mul_of_nonneg_right hdiv (by norm_num)
          _ = 100 := by norm_num

/-- Witness for C1 on the two-week, two-roster fixture: roster 1 wins
one of its two games, so the rate is 50, inside `[0, 100]`. -/
theorem calculateWinRate_spec_witness :
    calculateWinRate sampleMatchups 1 =
      (if 0 < specGames sampleMatchups 1 then
        100 * (specWins sampleMatchups 1 : Rat) / (specGames sampleMatchups 1 : Rat)
      else 0) ∧
    0 ≤ calculateWinRate sampleMatchups 1 ∧ calculateWinRate sampleMatchups 1 ≤ 100 :=
  calculateWinRate_spec sampleMatchups 1 (by decide) (by decide)

/-! ### Trending teams (C8) -/

theorem firstOccGo_exists_mem (r : Int) :
    ∀ (n : Nat) (l : List MatchupRec), l.length ≤ n →
      ((∃ m ∈ firstOccGo n l, m.roster_id = r) ↔ ∃ m ∈ l, m.roster_id = r) := by
  intro n
  induction n with
  | zero =>
    intro l hn
    rcases l with _ | ⟨m, rest⟩
    · simp [firstOccGo]
    · simp at hn
  | succ n ihn =>
    intro l hn
    rcases l with _ | ⟨m, rest⟩
    · simp [firstOccGo]
    · have hfl : (rest.filter (fun m2 => m2.roster_id ≠ m.roster_id)).length ≤ n :=
        calc (rest.filter (fun m2 => m2.roster_id ≠ m.roster_id)).length ≤ rest.length :=
            List.length_filter_le _ _
          _ ≤ n := by simpa [Nat.succ_le_succ_iff] using hn
      have ih := ihn _ hfl
      simp only [firstOccGo]
      constructor
      · rintro ⟨m2, hm2, hr⟩
        rcases List.mem_cons.mp hm2 with rfl | hm2
        · exact ⟨m2, List.mem_cons_self m2 rest, hr⟩
        · obtain ⟨m3, hm3, hr3⟩ := ih.mp ⟨m2, hm2, hr⟩
          exact ⟨m3, List.mem_cons_of_mem m (List.mem_of_mem_filter hm3), hr3⟩
      · rintro ⟨m2, hm2, hr⟩
        rcases List.mem_cons.mp hm2 with rfl | hm2
        · exact ⟨m2, List.mem_cons_self m2 _, hr⟩
        · by_cases hsame : m2.roster_id = m.roster_id
          · exact ⟨m, List.mem_cons_self m _, by rw [← hsame, hr]⟩
          · obtain ⟨m3, hm3, hr3⟩ := ih.mpr ⟨m2,
              List.mem_filter.mpr ⟨hm2, by simpa using hsame⟩, hr⟩
            exact ⟨m3, List.mem_cons_of_mem m hm3, hr3⟩

theorem firstOccByRoster_exists_mem (l : List MatchupRec) (r : Int) :
    (∃ m ∈ firstOccByRoster l, m.roster_id = r) ↔ ∃ m ∈ l, m.roster_id = r :=
  firstOccGo_exists_mem r l.length l le_rfl

/-- C8: `getTrendingTeams` returns `[]` whenever fewer than two
distinct considered weeks exist; otherwise every produced entry's
trend is the most-recent-week points minus the mean of the roster's
points over the other considered weeks (weeks with data only), the
output is sorted descending by trend, and it contains exactly the
rosters appearing in the considered weeks. -/
theorem getTrendingTeams_spec (matchups : List MatchupRec) (users : List LeagueUser)
    (weeksToConsider : Nat) :
    ((weeksToUse matchups weeksToConsider).length < 2 →
      getTrendingTeams matchups users weeksToConsider = []) ∧
    (2 ≤ (weeksToUse matchups weeksToConsider).length →
      (∀ tp ∈ getTrendingTeams matchups users weeksToConsider,
        tp.trend = trendOf matchups (weeksToUse matchups weeksToConsider) tp.rosterId) ∧
      List.Pairwise trendGe (getTrendingTeams matchups users weeksToConsider) ∧
      (∀ r : Int, (∃ tp ∈ getTrendingTeams matchups users weeksToConsider,
          tp.rosterId = r) ↔
        (∃ w ∈ weeksToUse matchups weeksToConsider, ∃ m ∈ matchups,
          m.week = w ∧ m.roster_id = r))) := by
  constructor
  · intro hlt
    by_cases hm : matchups = []
    · simp [getTrendingTeams, hm]
    · simp [getTrendingTeams, hm, hlt]
  · intro hge
    have hm : matchups ≠ [] := by
      intro h
      rw [h] at hge
      simp [weeksToUse, sortedWeeksDesc, dedupFirst] at hge
    have hlt : ¬ (weeksToUse matchups weeksToConsider).length < 2 := by omega
    have hunfold : getTrendingTeams matchups users weeksToConsider =
        List.insertionSort trendGe
          ((firstOccByRoster (((weeksToUse matchups weeksToConsider).map
            (matchupsOfWeek matchups)).flatten)).map
            (mkTeamPerf matchups users (weeksToUse matchups weeksToConsider))) := by
      simp [getTrendingTeams, hm, hlt]
    refine ⟨?_, ?_, ?_⟩
    · intro tp htp
      rw [hunfold] at htp
      have htp2 := (List.perm_insertionSort trendGe _).subset htp
      obtain ⟨m2, _, heq⟩ := List.mem_map.mp htp2
      rw [← heq]
      rfl
    · rw [hunfold]
      exact List.sorted_insertionSort trendGe _
    · intro r
      rw [hunfold]
      constructor
      · rintro ⟨tp, htp, hr⟩
        have htp2 := (List.perm_insertionSort trendGe _).subset htp
        obtain ⟨m2, hm2, heq⟩ := List.mem_map.mp htp2
        have hrid : m2.roster_id = r := by rw [← hr, ← heq]; rfl
        obtain ⟨m3, hm3, hr3⟩ := (firstOccByRoster_exists_mem _ r).mp ⟨m2, hm2, hrid⟩
        obtain ⟨lw, hlw, hmem3⟩ := List.mem_flatten.mp hm3
        obtain ⟨w, hw, hlww⟩ := List.mem_map.mp hlw
        rw [← hlww] at hmem3
        have hmf := List.mem_filter.mp hmem3
        refine ⟨w, hw, m3, hmf.1, by simpa using hmf.2, hr3⟩
      · rintro ⟨w, hw, m3, hm3, hwk, hr3⟩
        have hmem : m3 ∈ ((weeksToUse matchups weeksToConsider).map
            (matchupsOfWeek matchups)).flatten := by
          refine List.mem_flatten.mpr ⟨matchupsOfWeek matchups w,
            List.mem_map_of_mem _ hw, ?_⟩
          exact List.mem_filter.mpr ⟨hm3, by simpa using hwk⟩
        obtain ⟨m4, hm4, hr4⟩ := (firstOccByRoster_exists_mem _ r).mpr ⟨m3, hmem, hr3⟩
        refine ⟨mkTeamPerf matchups users (weeksToUse matchups weeksToConsider) m4,
          ?_, hr4⟩
        rw [(List.perm_insertionSort trendGe _).mem_iff]
        exact List.mem_map_of_mem _ hm4

/-- Witness for C8: the two-week fixture produces a descending-by-trend
output, and a single-week input produces the empty output. -/
theorem getTrendingTeams_spec_witness :
    List.Pairwise trendGe (getTrendingTeams sampleMatchups sampleUsers 3) ∧
    getTrendingTeams [⟨1, 1, 1, 100, none⟩] sampleUsers 3 = [] :=
  ⟨((getTrendingTeams_spec sampleMatchups sampleUsers 3).2 (by decide)).2.1,
    (getTrendingTeams_spec [⟨1, 1, 1, 100, none⟩] sampleUsers 3).1 (by decide)⟩

/-- Witness for C5 (amended): a season with timestamps 5 and 3 comes
out sorted ascending. -/
theorem fetchTransactions_sorted_witness :
    List.Pairwise tsLeD (fetchTransactions sampleDir "P1" [(2024, "L1")]
      (fun _ _ => some sampleBundleDefined) sampleDrafts samplePicks 2025) := by
  refine (fetchTransactions_sorted sampleDir "P1" [(2024, "L1")]
    (fun _ _ => some sampleBundleDefined) sampleDrafts samplePicks 2025 ?_).1
  intro s lid b hb t ht
  cases hb
  rcases List.mem_cons.mp ht with h | h
  · subst h; decide
  · rcases List.mem_cons.mp h with h2 | h2
    · subst h2; decide
    · simp at h2

end Dynasty
